import Mathlib

/-!
Verification of the Unified Entity Cards library (Rust sources under
`src/rust/src/`).  The dynamically-typed `serde_json::Value` document tree is
embedded as the inductive `Uec.Json`; object maps are association lists in
insertion order (the crate preserves key order), machine integers from the
JSON number model are embedded as `Int`.  Every operation of the library that
the verified claims touch is translated function-by-function from the Rust
source: `utils.rs`, `validators.rs`, `convert.rs` and `tools.rs`.
-/

namespace Uec

/-- The JSON value tree (`serde_json::Value`): null, booleans, numbers,
strings, arrays and objects.  Objects are association lists in insertion
order.  Numbers are embedded as `Int` (the claims under verification only
exercise integral numbers). -/
inductive Json where
  | null
  | bool (b : Bool)
  | num (n : Int)
  | str (s : String)
  | arr (items : List Json)
  | obj (fields : List (String × Json))
deriving Repr

mutual

/-- Structural boolean equality on `Json` (used to build `DecidableEq`). -/
def jeqb : Json → Json → Bool
  | .null, .null => true
  | .bool a, .bool b => a == b
  | .num a, .num b => a == b
  | .str a, .str b => a == b
  | .arr a, .arr b => jeqbList a b
  | .obj a, .obj b => jeqbFields a b
  | _, _ => false

def jeqbList : List Json → List Json → Bool
  | [], [] => true
  | x :: xs, y :: ys => jeqb x y && jeqbList xs ys
  | _, _ => false

def jeqbFields : List (String × Json) → List (String × Json) → Bool
  | [], [] => true
  | (k, v) :: xs, (k', v') :: ys => k == k' && jeqb v v' && jeqbFields xs ys
  | _, _ => false

end

mutual

theorem jeqb_eq : ∀ a b, jeqb a b = true → a = b
  | .null, .null, _ => rfl
  | .bool _, .bool _, h => by
      simp only [jeqb, beq_iff_eq] at h; simp [h]
  | .num _, .num _, h => by
      simp only [jeqb, beq_iff_eq] at h; simp [h]
  | .str _, .str _, h => by
      simp only [jeqb, beq_iff_eq] at h; simp [h]
  | .arr a, .arr b, h => by
      simp only [jeqb] at h
      simp [jeqbList_eq a b h]
  | .obj a, .obj b, h => by
      simp only [jeqb] at h
      simp [jeqbFields_eq a b h]
  | .null, .bool _, h => by simp [jeqb] at h
  | .null, .num _, h => by simp [jeqb] at h
  | .null, .str _, h => by simp [jeqb] at h
  | .null, .arr _, h => by simp [jeqb] at h
  | .null, .obj _, h => by simp [jeqb] at h
  | .bool _, .null, h => by simp [jeqb] at h
  | .bool _, .num _, h => by simp [jeqb] at h
  | .bool _, .str _, h => by simp [jeqb] at h
  | .bool _, .arr _, h => by simp [jeqb] at h
  | .bool _, .obj _, h => by simp [jeqb] at h
  | .num _, .null, h => by simp [jeqb] at h
  | .num _, .bool _, h => by simp [jeqb] at h
  | .num _, .str _, h => by simp [jeqb] at h
  | .num _, .arr _, h => by simp [jeqb] at h
  | .num _, .obj _, h => by simp [jeqb] at h
  | .str _, .null, h => by simp [jeqb] at h
  | .str _, .bool _, h => by simp [jeqb] at h
  | .str _, .num _, h => by simp [jeqb] at h
  | .str _, .arr _, h => by simp [jeqb] at h
  | .str _, .obj _, h => by simp [jeqb] at h
  | .arr _, .null, h => by simp [jeqb] at h
  | .arr _, .bool _, h => by simp [jeqb] at h
  | .arr _, .num _, h => by simp [jeqb] at h
  | .arr _, .str _, h => by simp [jeqb] at h
  | .arr _, .obj _, h => by simp [jeqb] at h
  | .obj _, .null, h => by simp [jeqb] at h
  | .obj _, .bool _, h => by simp [jeqb] at h
  | .obj _, .num _, h => by simp [jeqb] at h
  | .obj _, .str _, h => by simp [jeqb] at h
  | .obj _, .arr _, h => by simp [jeqb] at h

theorem jeqbList_eq : ∀ a b, jeqbList a b = true → a = b
  | [], [], _ => rfl
  | x :: xs, y :: ys, h => by
      simp only [jeqbList, Bool.and_eq_true] at h
      simp [jeqb_eq x y h.1, jeqbList_eq xs ys h.2]
  | [], _ :: _, h => by simp [jeqbList] at h
  | _ :: _, [], h => by simp [jeqbList] at h

theorem jeqbFields_eq : ∀ a b, jeqbFields a b = true → a = b
  | [], [], _ => rfl
  | (k, v) :: xs, (k', v') :: ys, h => by
      simp only [jeqbFields, Bool.and_eq_true, beq_iff_eq] at h
      simp [h.1.1, jeqb_eq v v' h.1.2, jeqbFields_eq xs ys h.2]
  | [], _ :: _, h => by simp [jeqbFields] at h
  | _ :: _, [], h => by simp [jeqbFields] at h

end

mutual

theorem jeqb_refl : ∀ a, jeqb a a = true
  | .null => rfl
  | .bool _ => by simp [jeqb]
  | .num _ => by simp [jeqb]
  | .str _ => by simp [jeqb]
  | .arr a => by simp [jeqb, jeqbList_refl a]
  | .obj a => by simp [jeqb, jeqbFields_refl a]

theorem jeqbList_refl : ∀ a, jeqbList a a = true
  | [] => rfl
  | x :: xs => by simp [jeqbList, jeqb_refl x, jeqbList_refl xs]

theorem jeqbFields_refl : ∀ a, jeqbFields a a = true
  | [] => rfl
  | (k, v) :: xs => by simp [jeqbFields, jeqb_refl v, jeqbFields_refl xs]

end

instance : DecidableEq Json := fun a b =>
  decidable_of_iff (jeqb a b = true)
    ⟨jeqb_eq a b, fun h => h ▸ jeqb_refl b⟩

/-- Association-list lookup: first entry with the given key
(`serde_json::Map::get`). -/
def jget : List (String × Json) → String → Option Json
  | [], _ => none
  | (k', v) :: rest, k => if k' = k then some v else jget rest k

/-- `serde_json::Map::insert`: replace the value at an existing key in place,
otherwise append the new entry at the end. -/
def jinsert : List (String × Json) → String → Json → List (String × Json)
  | [], k, v => [(k, v)]
  | (k', v') :: rest, k, v =>
    if k' = k then (k', v) :: rest else (k', v') :: jinsert rest k v

/-- `serde_json::Map::remove`: drop the entry with the given key.  (Entry
order after a removal is never observed by the verified operations.) -/
def jremoveEntry : List (String × Json) → String → List (String × Json)
  | [], _ => []
  | (k', v') :: rest, k =>
    if k' = k then rest else (k', v') :: jremoveEntry rest k

/-- `Value::get` on an object: `None` for non-objects. -/
def Json.get : Json → String → Option Json
  | .obj fs, k => jget fs k
  | _, _ => none

/-- `Value::as_str`. -/
def Json.asStr : Json → Option String
  | .str s => some s
  | _ => none

/-- `Value::as_i64` (numbers in this embedding are integral). -/
def Json.asI64 : Json → Option Int
  | .num n => some n
  | _ => none

/-- `Value::as_array`. -/
def Json.asArr : Json → Option (List Json)
  | .arr xs => some xs
  | _ => none

/-- `Value::as_object`. -/
def Json.asObj : Json → Option (List (String × Json))
  | .obj fs => some fs
  | _ => none

/-- `Value::is_null`. -/
def Json.isNull : Json → Bool
  | .null => true
  | _ => false

/-- `utils::is_string`. -/
def isString : Json → Bool
  | .str _ => true
  | _ => false

/-- `utils::is_number` (every `serde_json` number is i64, u64 or f64, so the
Rust predicate holds for every `Value::Number`). -/
def isNumber : Json → Bool
  | .num _ => true
  | _ => false

/-- `utils::is_boolean`. -/
def isBoolean : Json → Bool
  | .bool _ => true
  | _ => false

/-- `utils::is_object`. -/
def isObject : Json → Bool
  | .obj _ => true
  | _ => false

/-- `utils::optional_string`: absent, null or a string. -/
def optionalString : Option Json → Bool
  | none => true
  | some .null => true
  | some (.str _) => true
  | _ => false

/-- `utils::optional_number`. -/
def optionalNumber : Option Json → Bool
  | none => true
  | some v => isNumber v

/-- `utils::optional_boolean`. -/
def optionalBoolean : Option Json → Bool
  | none => true
  | some v => isBoolean v

/-- `utils::optional_object`. -/
def optionalObject : Option Json → Bool
  | none => true
  | some v => isObject v

/-- `utils::optional_string_array`. -/
def optionalStringArray : Option Json → Bool
  | none => true
  | some (.arr items) => items.all isString
  | some _ => false

/-- `constants::SCHEMA_NAME`. -/
def SCHEMA_NAME : String := "UEC"

/-- `constants::SCHEMA_VERSION` (v1). -/
def SCHEMA_VERSION : String := "1.0"

/-- `constants::SCHEMA_VERSION_V2`; pinned to `"2.0"` by the crate tests and
the spec. -/
def SCHEMA_VERSION_V2 : String := "2.0"

/-- `utils::known_version`. -/
def knownVersion (version : String) : Bool :=
  version = SCHEMA_VERSION || version = SCHEMA_VERSION_V2

/-- `utils::push_error` produces `"{path}: {message}"`; validators below
append such messages in source order. -/
def mkError (path message : String) : String :=
  path ++ ": " ++ message

/-- Lexicographic comparison of character lists by code point; on valid
UTF-8 this coincides with the byte-lexicographic `Ord` of Rust strings. -/
def charListLt : List Char → List Char → Bool
  | [], [] => false
  | [], _ :: _ => true
  | _ :: _, [] => false
  | x :: xs, y :: ys =>
    x.toNat < y.toNat || (x = y && charListLt xs ys)

/-- String ordering used by `BTreeMap` / `BTreeSet` keys. -/
def strLtb (a b : String) : Bool :=
  charListLt a.data b.data

/-- `str::starts_with` (on characters; UTF-8 prefix agreement coincides). -/
def strStartsWith (s pre : String) : Bool :=
  pre.data.isPrefixOf s.data

/-- Drop the first `n` characters of a string (`"_ID:..."` tail
extraction). -/
def strDrop (s : String) (n : Nat) : String :=
  ⟨s.data.drop n⟩

/-- `str::trim` (over the ASCII whitespace the verified inputs use). -/
def strTrim (s : String) : String :=
  ⟨((s.data.dropWhile Char.isWhitespace).reverse.dropWhile
      Char.isWhitespace).reverse⟩

/-- `str::is_empty`. -/
def strIsEmpty (s : String) : Bool :=
  s.data.isEmpty

/-- Insert a key into a strictly sorted field list, replacing the value if
the key is already present (`BTreeMap::insert`). -/
def fieldInsSorted : String → Json → List (String × Json) → List (String × Json)
  | k, v, [] => [(k, v)]
  | k, v, (k', v') :: rest =>
    if strLtb k k' then (k, v) :: (k', v') :: rest
    else if k = k' then (k, v) :: rest
    else (k', v') :: fieldInsSorted k v rest

/-- Collect fields into a `BTreeMap` in iteration order (later duplicates
overwrite), then read the map back out in sorted key order —
the object branch of `utils::normalize_value`. -/
def sortFields (fs : List (String × Json)) : List (String × Json) :=
  fs.foldl (fun acc kv => fieldInsSorted kv.1 kv.2 acc) []

mutual

/-- `utils::normalize_value`: recursively key-sort every object. -/
def normalizeValue : Json → Json
  | .arr xs => .arr (normalizeList xs)
  | .obj fs => .obj (sortFields (normalizeFields fs))
  | v => v

def normalizeList : List Json → List Json
  | [] => []
  | x :: xs => normalizeValue x :: normalizeList xs

def normalizeFields : List (String × Json) → List (String × Json)
  | [] => []
  | (k, v) :: fs => (k, normalizeValue v) :: normalizeFields fs

end

/-- `tools::normalize_uec`: normalize, then default each of
`app_specific_settings` / `meta` / `extensions` to an empty object whenever
it is absent or not an object. -/
def normalizeUec (card : Json) : Json :=
  match normalizeValue card with
  | .obj root =>
    let root :=
      if (jget root "app_specific_settings").any isObject then root
      else jinsert root "app_specific_settings" (.obj [])
    let root :=
      if (jget root "meta").any isObject then root
      else jinsert root "meta" (.obj [])
    let root :=
      if (jget root "extensions").any isObject then root
      else jinsert root "extensions" (.obj [])
    .obj root
  | v => v

mutual

/-- `serde_json::Value` equality (`PartialEq`): arrays element-wise, object
maps compared as key-value sets (order-insensitively). -/
def jsonEq : Json → Json → Bool
  | .null, .null => true
  | .bool a, .bool b => a == b
  | .num a, .num b => a == b
  | .str a, .str b => a == b
  | .arr a, .arr b => jsonEqList a b
  | .obj a, .obj b => a.length == b.length && jsonEqFields a b
  | _, _ => false

def jsonEqList : List Json → List Json → Bool
  | [], [] => true
  | x :: xs, y :: ys => jsonEq x y && jsonEqList xs ys
  | _, _ => false

def jsonEqFields : List (String × Json) → List (String × Json) → Bool
  | [], _ => true
  | (k, v) :: rest, b =>
    (match jget b k with
     | some w => jsonEq v w
     | none => false) && jsonEqFields rest b

end

mutual

/-- Representation invariant: object key lists contain no duplicate keys
(real `serde_json` maps cannot hold a key twice). -/
def Json.wf : Json → Bool
  | .null | .bool _ | .num _ | .str _ => true
  | .arr xs => Json.wfList xs
  | .obj fs => Json.wfFields fs

def Json.wfList : List Json → Bool
  | [] => true
  | x :: xs => x.wf && Json.wfList xs

def Json.wfFields : List (String × Json) → Bool
  | [] => true
  | (k, v) :: fs => (jget fs k).isNone && v.wf && Json.wfFields fs

end

/-- `types::ValidationResult`. -/
structure ValidationResult where
  ok : Bool
  errors : List String
deriving Repr, DecidableEq

/-- `validators::validate_asset_locator`.  The returned list holds the error
messages the Rust function pushes, in push order. -/
def validateAssetLocator (value : Option Json) (path : String) : List String :=
  match value with
  | none => []
  | some .null => []
  | some (.str _) => []
  | some (.obj map) =>
    let valueType := (jget map "type").bind Json.asStr
    if !(valueType.any fun t =>
        t = "inline_base64" || t = "remote_url" || t = "asset_ref") then
      [mkError (path ++ ".type") "must be one of: inline_base64, remote_url, asset_ref"]
    else
      (if !optionalString (jget map "mimeType") then
        [mkError (path ++ ".mimeType") "must be a string if provided"]
      else []) ++
      (match valueType.getD "" with
       | "inline_base64" =>
         if !(jget map "data").any isString then
           [mkError (path ++ ".data") "is required for inline_base64"]
         else []
       | "remote_url" =>
         if !(jget map "url").any isString then
           [mkError (path ++ ".url") "is required for remote_url"]
         else []
       | "asset_ref" =>
         if !(jget map "assetId").any isString then
           [mkError (path ++ ".assetId") "is required for asset_ref"]
         else []
       | _ => [])
  | some _ => [mkError path "must be a string, object, or null"]

/-- One entry of the `payload.characterBook.entries` loop in
`validators::validate_character_book`. -/
def validateBookEntry (entry : Json) (entryPath : String) : List String :=
  match entry with
  | .obj entryMap =>
    (if !optionalString (jget entryMap "name") then
      [mkError (entryPath ++ ".name") "must be a string or null"]
    else []) ++
    (match jget entryMap "keys" with
     | some (.arr items) =>
       if !items.all isString then
         [mkError (entryPath ++ ".keys") "must be an array of strings"]
       else []
     | some _ => [mkError (entryPath ++ ".keys") "must be an array of strings"]
     | none => []) ++
    (match jget entryMap "secondary_keys" with
     | some (.arr items) =>
       if !items.all isString then
         [mkError (entryPath ++ ".secondary_keys") "must be an array of strings"]
       else []
     | some _ => [mkError (entryPath ++ ".secondary_keys") "must be an array of strings"]
     | none => []) ++
    (if !(jget entryMap "content").any isString then
      [mkError (entryPath ++ ".content") "must be a string"]
    else []) ++
    (if !optionalBoolean (jget entryMap "enabled") then
      [mkError (entryPath ++ ".enabled") "must be a boolean"]
    else []) ++
    (if !optionalNumber (jget entryMap "insertion_order") then
      [mkError (entryPath ++ ".insertion_order") "must be a number"]
    else []) ++
    (if !optionalBoolean (jget entryMap "case_sensitive") then
      [mkError (entryPath ++ ".case_sensitive") "must be a boolean"]
    else []) ++
    (if !optionalNumber (jget entryMap "priority") then
      [mkError (entryPath ++ ".priority") "must be a number"]
    else []) ++
    (if !optionalBoolean (jget entryMap "constant") then
      [mkError (entryPath ++ ".constant") "must be a boolean"]
    else [])
  | _ => [mkError entryPath "must be an object"]

/-- The indexed `entries` loop of `validators::validate_character_book`. -/
def validateBookEntries (entries : List Json) (index : Nat) : List String :=
  match entries with
  | [] => []
  | entry :: rest =>
    validateBookEntry entry
        ("payload.characterBook.entries[" ++ toString index ++ "]") ++
      validateBookEntries rest (index + 1)

/-- `validators::validate_character_book`. -/
def validateCharacterBook (book : Option Json) : List String :=
  match book with
  | none => []
  | some .null => []
  | some (.obj bookMap) =>
    (if !optionalString (jget bookMap "name") then
      [mkError "payload.characterBook.name" "must be a string or null"]
    else []) ++
    (if !optionalString (jget bookMap "description") then
      [mkError "payload.characterBook.description" "must be a string or null"]
    else []) ++
    (match jget bookMap "entries" with
     | some (.arr entries) => validateBookEntries entries 0
     | some _ => [mkError "payload.characterBook.entries" "must be an array"]
     | none => [])
  | some _ => [mkError "payload.characterBook" "must be an object"]

/-- `validators::validate_variant`. -/
def validateVariant (variant : Json) (path : String) : List String :=
  match variant with
  | .obj map =>
    (if !(jget map "id").any isString then
      [mkError (path ++ ".id") "must be a string"]
    else []) ++
    (if !(jget map "content").any isString then
      [mkError (path ++ ".content") "must be a string"]
    else []) ++
    (if !(jget map "createdAt").any isNumber then
      [mkError (path ++ ".createdAt") "must be a number"]
    else [])
  | _ => [mkError path "must be an object"]

/-- The indexed `variants` loop of `validators::validate_scene_base`. -/
def validateVariants (variants : List Json) (path : String) (index : Nat) :
    List String :=
  match variants with
  | [] => []
  | variant :: rest =>
    validateVariant variant (path ++ ".variants[" ++ toString index ++ "]") ++
      validateVariants rest path (index + 1)

/-- `validators::validate_scene_base`; the boolean mirrors the Rust return
value (`false` exactly when the scene is not an object). -/
def validateSceneBase (scene : Json) (path : String) (strict : Bool) :
    List String × Bool :=
  match scene with
  | .obj map =>
    ((if !(jget map "id").any isString then
        [mkError (path ++ ".id") "must be a string"]
      else []) ++
      (if !(jget map "content").any isString then
        [mkError (path ++ ".content") "must be a string"]
      else []) ++
      (if !optionalString (jget map "direction") then
        [mkError (path ++ ".direction") "must be a string"]
      else []) ++
      (if !optionalNumber (jget map "createdAt") then
        [mkError (path ++ ".createdAt") "must be a number"]
      else []) ++
      (match jget map "variants" with
       | some (.arr items) => validateVariants items path 0
       | some _ => [mkError (path ++ ".variants") "must be an array"]
       | none => []) ++
      (if strict then
        (if !(jget map "id").any isString then
          [mkError (path ++ ".id") "is required"]
        else []) ++
        (if !(jget map "content").any isString then
          [mkError (path ++ ".content") "is required"]
        else [])
      else []),
      true)
  | _ => ([mkError path "must be an object"], false)

/-- `validators::validate_scene` (v1). -/
def validateScene (scene : Json) (path : String) (strict : Bool) : List String :=
  let base := validateSceneBase scene path strict
  if !base.2 then base.1
  else
    base.1 ++
      match scene with
      | .obj map =>
        (match jget map "selectedVariantId" with
         | some (.str _) => []
         | some .null => []
         | some _ =>
           [mkError (path ++ ".selectedVariantId") "must be a string or null"]
         | none => [])
      | _ => []

/-- `validators::validate_scene_v2`. -/
def validateSceneV2 (scene : Json) (path : String) (strict : Bool) : List String :=
  let base := validateSceneBase scene path strict
  if !base.2 then base.1
  else
    base.1 ++
      match scene with
      | .obj map =>
        (match jget map "selectedVariant" with
         | some (.num n) =>
           if n = 0 then []
           else [mkError (path ++ ".selectedVariant") "must be 0 or a variant ID string"]
         | some (.str _) => []
         | some _ =>
           [mkError (path ++ ".selectedVariant") "must be 0 or a variant ID string"]
         | none => [])
      | _ => []

/-- `validators::validate_voice_config_v1`. -/
def validateVoiceConfigV1 (voiceConfig : Option Json) : List String :=
  match voiceConfig with
  | none => []
  | some (.obj map) =>
    (if !(jget map "source").any isString then
      [mkError "payload.voiceConfig.source" "must be a string"]
    else []) ++
    (if !(jget map "providerId").any isString then
      [mkError "payload.voiceConfig.providerId" "must be a string"]
    else []) ++
    (if !(jget map "voiceId").any isString then
      [mkError "payload.voiceConfig.voiceId" "must be a string"]
    else [])
  | some _ => [mkError "payload.voiceConfig" "must be an object"]

/-- `validators::validate_voice_config_v2`. -/
def validateVoiceConfigV2 (voiceConfig : Option Json) : List String :=
  match voiceConfig with
  | none => []
  | some (.obj map) =>
    (if !(jget map "source").any isString then
      [mkError "payload.voiceConfig.source" "must be a string"]
    else []) ++
    (if !optionalString (jget map "providerId") then
      [mkError "payload.voiceConfig.providerId" "must be a string if provided"]
    else []) ++
    (if !optionalString (jget map "voiceId") then
      [mkError "payload.voiceConfig.voiceId" "must be a string if provided"]
    else []) ++
    (if !optionalString (jget map "userVoiceId") then
      [mkError "payload.voiceConfig.userVoiceId" "must be a string if provided"]
    else []) ++
    (if !optionalString (jget map "modelId") then
      [mkError "payload.voiceConfig.modelId" "must be a string if provided"]
    else []) ++
    (if !optionalString (jget map "voiceName") then
      [mkError "payload.voiceConfig.voiceName" "must be a string if provided"]
    else [])
  | some _ => [mkError "payload.voiceConfig" "must be an object"]

/-- `validators::validate_schema`: errors plus the extracted version string
(the Rust function returns `version.and_then(Value::as_str)`). -/
def validateSchema (schema : Option Json) : List String × Option String :=
  match schema with
  | none => ([mkError "schema" "must be an object"], none)
  | some (.obj map) =>
    let name := jget map "name"
    let version := jget map "version"
    ((if !name.any isString then
        [mkError "schema.name" "must be a string"]
      else if name.bind Json.asStr ≠ some SCHEMA_NAME then
        [mkError "schema.name" "must be \"UEC\""]
      else []) ++
      (if !version.any isString then
        [mkError "schema.version" "must be a string"]
      else if !knownVersion ((version.bind Json.asStr).getD "") then
        [mkError "schema.version"
          ("unknown version \"" ++ (version.bind Json.asStr).getD "" ++ "\"")]
      else []) ++
      (match jget map "compat" with
       | some compat =>
         if !isString compat then
           [mkError "schema.compat" "must be a string if provided"]
         else []
       | none => []),
      version.bind Json.asStr)
  | some _ => ([mkError "schema" "must be an object"], none)

/-- `validators::validate_app_specific_settings`. -/
def validateAppSpecificSettings (settings : Option Json) : List String :=
  match settings with
  | none => []
  | some v => if !isObject v then [mkError "app_specific_settings" "must be an object"] else []

/-- `validators::validate_meta` (the v1 / version-independent meta rule). -/
def validateMeta (meta : Option Json) : List String :=
  match meta with
  | none => []
  | some (.obj map) =>
    (if !optionalNumber (jget map "createdAt") then
      [mkError "meta.createdAt" "must be a number"]
    else []) ++
    (if !optionalNumber (jget map "updatedAt") then
      [mkError "meta.updatedAt" "must be a number"]
    else []) ++
    (if !optionalString (jget map "source") then
      [mkError "meta.source" "must be a string"]
    else []) ++
    (match jget map "authors" with
     | some (.arr items) =>
       if !items.all isString then
         [mkError "meta.authors" "must be an array of strings"]
       else []
     | some _ => [mkError "meta.authors" "must be an array of strings"]
     | none => []) ++
    (if !optionalString (jget map "license") then
      [mkError "meta.license" "must be a string"]
    else [])
  | some _ => [mkError "meta" "must be an object"]

/-- `validators::validate_meta_v2`: layers the provenance-field checks on top
of `validate_meta`. -/
def validateMetaV2 (meta : Option Json) (strict : Bool) : List String :=
  validateMeta meta ++
    (if strict && !meta.any isObject then
      [mkError "meta.originalCreatedAt" "is required in strict mode",
       mkError "meta.originalUpdatedAt" "is required in strict mode"]
    else
      match meta with
      | some (.obj map) =>
        (if !optionalNumber (jget map "originalCreatedAt") then
          [mkError "meta.originalCreatedAt" "must be a number"]
        else []) ++
        (if !optionalNumber (jget map "originalUpdatedAt") then
          [mkError "meta.originalUpdatedAt" "must be a number"]
        else []) ++
        (if !optionalString (jget map "originalSource") then
          [mkError "meta.originalSource" "must be a string"]
        else []) ++
        (if strict then
          (if !(jget map "originalCreatedAt").any isNumber then
            [mkError "meta.originalCreatedAt" "is required in strict mode"]
          else []) ++
          (if !(jget map "originalUpdatedAt").any isNumber then
            [mkError "meta.originalUpdatedAt" "is required in strict mode"]
          else [])
        else [])
      | _ => [])

/-- The indexed `payload.scenes` loop of
`validators::validate_character_payload_v1`. -/
def validateScenes (scenes : List Json) (index : Nat) (strict : Bool) :
    List String :=
  match scenes with
  | [] => []
  | scene :: rest =>
    validateScene scene ("payload.scenes[" ++ toString index ++ "]") strict ++
      validateScenes rest (index + 1) strict

/-- `validators::validate_character_payload_v1`. -/
def validateCharacterPayloadV1 (payload : Json) (strict : Bool) : List String :=
  match payload with
  | .obj map =>
    (if !(jget map "id").any isString then
      [mkError "payload.id" "must be a string"]
    else []) ++
    (if !(jget map "name").any isString then
      [mkError "payload.name" "must be a string"]
    else []) ++
    (if !optionalString (jget map "description") then
      [mkError "payload.description" "must be a string"]
    else []) ++
    (if !optionalString (jget map "definitions") then
      [mkError "payload.definitions" "must be a string"]
    else []) ++
    (if !optionalStringArray (jget map "tags") then
      [mkError "payload.tags" "must be an array of strings"]
    else []) ++
    (if !optionalString (jget map "avatar") then
      [mkError "payload.avatar" "must be a string or null"]
    else []) ++
    (if !optionalString (jget map "chatBackground") then
      [mkError "payload.chatBackground" "must be a string or null"]
    else []) ++
    (if !optionalStringArray (jget map "rules") then
      [mkError "payload.rules" "must be an array of strings"]
    else []) ++
    (match jget map "scenes" with
     | some (.arr scenes) => validateScenes scenes 0 strict
     | some _ => [mkError "payload.scenes" "must be an array"]
     | none => []) ++
    (if !optionalString (jget map "defaultSceneId") then
      [mkError "payload.defaultSceneId" "must be a string or null"]
    else []) ++
    (if !optionalString (jget map "defaultModelId") then
      [mkError "payload.defaultModelId" "must be a string or null"]
    else []) ++
    (if !optionalString (jget map "systemPrompt") then
      [mkError "payload.systemPrompt" "must be a string or null"]
    else []) ++
    validateVoiceConfigV1 (jget map "voiceConfig") ++
    (if !optionalBoolean (jget map "voiceAutoplay") then
      [mkError "payload.voiceAutoplay" "must be a boolean"]
    else []) ++
    (if !optionalNumber (jget map "createdAt") then
      [mkError "payload.createdAt" "must be a number"]
    else []) ++
    (if !optionalNumber (jget map "updatedAt") then
      [mkError "payload.updatedAt" "must be a number"]
    else []) ++
    (if strict then
      (if !(jget map "description").any isString then
        [mkError "payload.description" "is required in strict mode"]
      else []) ++
      (match jget map "rules" with
       | some (.arr _) => []
       | _ => [mkError "payload.rules" "is required in strict mode"]) ++
      (match jget map "scenes" with
       | some (.arr _) => []
       | _ => [mkError "payload.scenes" "is required in strict mode"]) ++
      (if !(jget map "createdAt").any isNumber then
        [mkError "payload.createdAt" "is required in strict mode"]
      else []) ++
      (if !(jget map "updatedAt").any isNumber then
        [mkError "payload.updatedAt" "is required in strict mode"]
      else [])
    else [])
  | _ => [mkError "payload" "must be an object"]

/-- `validators::validate_persona_payload_v1`. -/
def validatePersonaPayloadV1 (payload : Json) (strict : Bool) : List String :=
  match payload with
  | .obj map =>
    (if !(jget map "id").any isString then
      [mkError "payload.id" "must be a string"]
    else []) ++
    (if !(jget map "title").any isString then
      [mkError "payload.title" "must be a string"]
    else []) ++
    (if !optionalString (jget map "description") then
      [mkError "payload.description" "must be a string"]
    else []) ++
    (if !optionalString (jget map "avatar") then
      [mkError "payload.avatar" "must be a string or null"]
    else []) ++
    (if !optionalBoolean (jget map "isDefault") then
      [mkError "payload.isDefault" "must be a boolean"]
    else []) ++
    (if !optionalNumber (jget map "createdAt") then
      [mkError "payload.createdAt" "must be a number"]
    else []) ++
    (if !optionalNumber (jget map "updatedAt") then
      [mkError "payload.updatedAt" "must be a number"]
    else []) ++
    (if strict then
      (if !(jget map "description").any isString then
        [mkError "payload.description" "is required in strict mode"]
      else []) ++
      (if !(jget map "createdAt").any isNumber then
        [mkError "payload.createdAt" "is required in strict mode"]
      else []) ++
      (if !(jget map "updatedAt").any isNumber then
        [mkError "payload.updatedAt" "is required in strict mode"]
      else [])
    else [])
  | _ => [mkError "payload" "must be an object"]

/-- `validators::validate_character_payload_v2`. -/
def validateCharacterPayloadV2 (payload : Json) (strict : Bool) : List String :=
  match payload with
  | .obj map =>
    (if !(jget map "id").any isString then
      [mkError "payload.id" "must be a string"]
    else []) ++
    (if !(jget map "name").any isString then
      [mkError "payload.name" "must be a string"]
    else []) ++
    (if !optionalString (jget map "description") then
      [mkError "payload.description" "must be a string"]
    else []) ++
    (if !optionalString (jget map "definitions") then
      [mkError "payload.definitions" "must be a string"]
    else []) ++
    (if !optionalStringArray (jget map "tags") then
      [mkError "payload.tags" "must be an array of strings"]
    else []) ++
    validateAssetLocator (jget map "avatar") "payload.avatar" ++
    validateAssetLocator (jget map "chatBackground") "payload.chatBackground" ++
    (if strict && (jget map "rules").isSome then
      [mkError "payload.rules"
        "is not a valid field in v2; use systemPrompt or characterBook instead"]
    else []) ++
    (match jget map "scene" with
     | some .null => []
     | some scene => validateSceneV2 scene "payload.scene" strict
     | none => []) ++
    (if !optionalString (jget map "defaultModelId") then
      [mkError "payload.defaultModelId" "must be a string or null"]
    else []) ++
    (if !optionalString (jget map "fallbackModelId") then
      [mkError "payload.fallbackModelId" "must be a string or null"]
    else []) ++
    (if !optionalString (jget map "systemPrompt") then
      [mkError "payload.systemPrompt" "must be a string or null"]
    else []) ++
    (if !optionalString (jget map "promptTemplateId") then
      [mkError "payload.promptTemplateId" "must be a string or null"]
    else []) ++
    (if !optionalString (jget map "nickname") then
      [mkError "payload.nickname" "must be a string or null"]
    else []) ++
    (if !optionalString (jget map "creator") then
      [mkError "payload.creator" "must be a string or null"]
    else []) ++
    (if !optionalString (jget map "creatorNotes") then
      [mkError "payload.creatorNotes" "must be a string or null"]
    else []) ++
    (if !optionalObject (jget map "creatorNotesMultilingual") then
      [mkError "payload.creatorNotesMultilingual" "must be an object if provided"]
    else []) ++
    (match jget map "source" with
     | some (.arr items) =>
       if !items.all isString then
         [mkError "payload.source" "must be an array of strings"]
       else []
     | some _ => [mkError "payload.source" "must be an array of strings"]
     | none => []) ++
    validateVoiceConfigV2 (jget map "voiceConfig") ++
    (if !optionalBoolean (jget map "voiceAutoplay") then
      [mkError "payload.voiceAutoplay" "must be a boolean"]
    else []) ++
    validateCharacterBook (jget map "characterBook") ++
    (if !optionalNumber (jget map "createdAt") then
      [mkError "payload.createdAt" "must be a number"]
    else []) ++
    (if !optionalNumber (jget map "updatedAt") then
      [mkError "payload.updatedAt" "must be a number"]
    else []) ++
    (if strict then
      (if !(jget map "description").any isString then
        [mkError "payload.description" "is required in strict mode"]
      else []) ++
      (if !(jget map "scene").any isObject then
        [mkError "payload.scene" "is required in strict mode"]
      else []) ++
      (if !(jget map "createdAt").any isNumber then
        [mkError "payload.createdAt" "is required in strict mode"]
      else []) ++
      (if !(jget map "updatedAt").any isNumber then
        [mkError "payload.updatedAt" "is required in strict mode"]
      else [])
    else [])
  | _ => [mkError "payload" "must be an object"]

/-- `validators::validate_persona_payload_v2`. -/
def validatePersonaPayloadV2 (payload : Json) (strict : Bool) : List String :=
  match payload with
  | .obj map =>
    (if !(jget map "id").any isString then
      [mkError "payload.id" "must be a string"]
    else []) ++
    (if !(jget map "title").any isString then
      [mkError "payload.title" "must be a string"]
    else []) ++
    (if !optionalString (jget map "description") then
      [mkError "payload.description" "must be a string"]
    else []) ++
    validateAssetLocator (jget map "avatar") "payload.avatar" ++
    (if !optionalBoolean (jget map "isDefault") then
      [mkError "payload.isDefault" "must be a boolean"]
    else []) ++
    (if !optionalNumber (jget map "createdAt") then
      [mkError "payload.createdAt" "must be a number"]
    else []) ++
    (if !optionalNumber (jget map "updatedAt") then
      [mkError "payload.updatedAt" "must be a number"]
    else []) ++
    (if strict then
      (if !(jget map "description").any isString then
        [mkError "payload.description" "is required in strict mode"]
      else []) ++
      (if !(jget map "createdAt").any isNumber then
        [mkError "payload.createdAt" "is required in strict mode"]
      else []) ++
      (if !(jget map "updatedAt").any isNumber then
        [mkError "payload.updatedAt" "is required in strict mode"]
      else [])
    else [])
  | _ => [mkError "payload" "must be an object"]

/-- The `kind` check of `validators::validate_uec`. -/
def validateKind (kind : Option Json) : List String :=
  match kind with
  | some (.str k) =>
    if k = "character" || k = "persona" then []
    else [mkError "kind" "must be \"character\" or \"persona\""]
  | _ => [mkError "kind" "must be \"character\" or \"persona\""]

/-- The payload dispatch of `validators::validate_uec`: payload-specific
rules run only when the payload is an object, the version is known and the
kind is a recognized string. -/
def validatePayloadDispatch (payload kind : Option Json)
    (isV2 known strict : Bool) : List String :=
  match payload with
  | some (.obj map) =>
    if known then
      match kind.bind Json.asStr with
      | some "character" =>
        if isV2 then validateCharacterPayloadV2 (.obj map) strict
        else validateCharacterPayloadV1 (.obj map) strict
      | some "persona" =>
        if isV2 then validatePersonaPayloadV2 (.obj map) strict
        else validatePersonaPayloadV1 (.obj map) strict
      | _ => []
    else []
  | _ => [mkError "payload" "must be an object"]

/-- The `extensions` check of `validators::validate_uec`. -/
def validateExtensions (extensions : Option Json) : List String :=
  match extensions with
  | some v => if !isObject v then [mkError "extensions" "must be an object"] else []
  | none => []

/-- `validators::validate_uec`. -/
def validateUec (value : Json) (strict : Bool) : ValidationResult :=
  match value with
  | .obj map =>
    let schemaResult := validateSchema (jget map "schema")
    let version := schemaResult.2
    let isV2 := version = some SCHEMA_VERSION_V2
    let known := (version.map knownVersion).getD false
    let errors :=
      schemaResult.1 ++
        validateKind (jget map "kind") ++
        validatePayloadDispatch (jget map "payload") (jget map "kind")
          isV2 known strict ++
        validateAppSpecificSettings (jget map "app_specific_settings") ++
        (if isV2 && known then validateMetaV2 (jget map "meta") strict
         else validateMeta (jget map "meta")) ++
        validateExtensions (jget map "extensions")
    { ok := errors.isEmpty, errors := errors }
  | _ => { ok := false, errors := [mkError "root" "must be an object"] }

/-- Scene folding inside `convert::convert_uec_v1_to_v2`: rename the removed
`selectedVariantId` to `selectedVariant`, mapping null to the number 0. -/
def convertScene (pickedScene : List (String × Json)) : List (String × Json) :=
  match jget pickedScene "selectedVariantId" with
  | some selected =>
    let scene := jremoveEntry pickedScene "selectedVariantId"
    if selected.isNull then jinsert scene "selectedVariant" (.num 0)
    else jinsert scene "selectedVariant" selected
  | none => pickedScene

/-- The scene-folding step (3) of `convert::convert_uec_v1_to_v2`: pick the
default (or first) scene of a non-empty `scenes` array, store it as `scene`,
and drop the `scenes` key. -/
def convertScenesStep (payload : List (String × Json)) : List (String × Json) :=
  match jget payload "scenes" with
  | some scenes =>
    let payload :=
      match scenes with
      | .arr sceneItems =>
        if sceneItems.isEmpty then payload
        else
          let defaultId := (jget payload "defaultSceneId").bind Json.asStr
          let picked :=
            (defaultId.bind fun id =>
              sceneItems.find? fun scene =>
                (scene.get "id").bind Json.asStr = some id).orElse
              (fun _ => sceneItems.head?)
          match picked with
          | some (.obj pickedScene) =>
            jinsert payload "scene" (.obj (convertScene pickedScene))
          | _ => payload
      | _ => payload
    jremoveEntry payload "scenes"
  | none => payload

/-- The prompt-template extraction step (4) of
`convert::convert_uec_v1_to_v2`. -/
def convertPromptStep (payload : List (String × Json)) : List (String × Json) :=
  match jget payload "systemPrompt" with
  | some (.str systemPrompt) =>
    if strStartsWith systemPrompt "_ID:" then
      jinsert (jinsert payload "promptTemplateId"
        (.str (strDrop systemPrompt 4))) "systemPrompt" .null
    else payload
  | _ => payload

/-- The payload transform of `convert::convert_uec_v1_to_v2` (steps 2-4:
drop `rules`, fold `scenes` into `scene`, remove `defaultSceneId`, extract
the `"_ID:"` prompt template), in source order. -/
def convertPayload (payload : List (String × Json)) : List (String × Json) :=
  convertPromptStep
    (jremoveEntry (convertScenesStep (jremoveEntry payload "rules"))
      "defaultSceneId")

/-- The provenance copy-once step (5) of `convert::convert_uec_v1_to_v2`. -/
def convertMeta (meta : List (String × Json)) : List (String × Json) :=
  let meta :=
    if !(jget meta "originalCreatedAt").isSome then
      match jget meta "createdAt" with
      | some created =>
        if isNumber created then jinsert meta "originalCreatedAt" created
        else meta
      | none => meta
    else meta
  let meta :=
    if !(jget meta "originalUpdatedAt").isSome then
      match jget meta "updatedAt" with
      | some updated =>
        if isNumber updated then jinsert meta "originalUpdatedAt" updated
        else meta
      | none => meta
    else meta
  if !(jget meta "originalSource").isSome then
    match jget meta "source" with
    | some source =>
      if isString source then jinsert meta "originalSource" source
      else meta
    | none => meta
  else meta

/-- `convert::convert_uec_v1_to_v2`. -/
def convertUecV1ToV2 (card : Json) : Except String Json :=
  if !isObject card then .error "card must be an object"
  else
    let validation := validateUec card false
    if !validation.ok then
      .error ("card must be a valid v1 UEC: " ++
        String.intercalate "; " validation.errors)
    else
      let version :=
        (((card.get "schema").bind fun schema => schema.get "version").bind
          Json.asStr).getD ""
      if version ≠ SCHEMA_VERSION then
        .error ("card must be schema version \"" ++ SCHEMA_VERSION ++ "\" to convert")
      else
        match card with
        | .obj root =>
          let root :=
            match jget root "schema" with
            | some (.obj schema) =>
              jinsert root "schema"
                (.obj (jinsert schema "version" (.str SCHEMA_VERSION_V2)))
            | _ => root
          let root :=
            match jget root "payload" with
            | some (.obj payload) =>
              jinsert root "payload" (.obj (convertPayload payload))
            | _ => root
          let meta :=
            match jget root "meta" with
            | some (.obj meta) => meta
            | _ => []
          .ok (.obj (jinsert root "meta" (.obj (convertMeta meta))))
        | _ => .error "card must be an object"

/-- `types::DowngradeResult`. -/
structure DowngradeResult where
  card : Json
  warnings : List String
deriving Repr, DecidableEq

/-- The v2 scene unfolding inside `tools::downgrade_uec`: rename
`selectedVariant` back to `selectedVariantId` (the number 0 becomes null). -/
def downgradeScene (sceneMap : List (String × Json)) : List (String × Json) :=
  match jget sceneMap "selectedVariant" with
  | some selected =>
    let sceneMap := jremoveEntry sceneMap "selectedVariant"
    match selected with
    | .num n =>
      if n = 0 then jinsert sceneMap "selectedVariantId" .null
      else jinsert sceneMap "selectedVariantId" (.num n)
    | _ => jinsert sceneMap "selectedVariantId" selected
  | none => sceneMap

/-- The `removed_fields` loop of `tools::downgrade_uec`. -/
def downgradeRemovedFields (payload : List (String × Json))
    (fields : List String) : List (String × Json) × List String :=
  match fields with
  | [] => (payload, [])
  | field :: rest =>
    if (jget payload field).isSome then
      let next := downgradeRemovedFields (jremoveEntry payload field) rest
      (next.1,
        ("payload." ++ field ++ " is not supported in v1 and was removed") :: next.2)
    else downgradeRemovedFields payload rest

/-- The scene unfolding step of the payload transform of
`tools::downgrade_uec`: remove `scene` and, when it was an object, store it
back as a singleton `scenes` array with `defaultSceneId` pointing at it. -/
def downgradeSceneStep (payload : List (String × Json)) : List (String × Json) :=
  match jget payload "scene" with
  | some scene =>
    let payload := jremoveEntry payload "scene"
    match scene with
    | .obj sceneMap =>
      let sceneMap := downgradeScene sceneMap
      let sceneId := jget sceneMap "id"
      let payload := jinsert payload "scenes" (.arr [.obj sceneMap])
      match sceneId with
      | some id => jinsert payload "defaultSceneId" id
      | none => payload
    | _ => payload
  | none => payload

/-- The prompt-template folding step of the payload transform of
`tools::downgrade_uec`, with its warning. -/
def downgradePromptStep (payload : List (String × Json)) :
    List (String × Json) × List String :=
  match jget payload "promptTemplateId" with
  | some promptTemplateId =>
    let payload := jremoveEntry payload "promptTemplateId"
    let payload :=
      if ((jget payload "systemPrompt").map Json.isNull).getD true then
        match promptTemplateId.asStr with
        | some templateId =>
          jinsert payload "systemPrompt" (.str ("_ID:" ++ templateId))
        | none => payload
      else payload
    (payload,
      ["payload.promptTemplateId was mapped to v1 systemPrompt and then removed"])
  | none => (payload, [])

/-- The payload transform of `tools::downgrade_uec` (scene, prompt template,
dropped v2-only fields, `rules` synthesis), returning the new payload and
the warnings it emits in order. -/
def downgradePayload (payload : List (String × Json)) (keepRules : Bool) :
    List (String × Json) × List String :=
  let promptStep := downgradePromptStep (downgradeSceneStep payload)
  let removedStep :=
    downgradeRemovedFields promptStep.1
      ["fallbackModelId", "nickname", "creator", "creatorNotes",
       "creatorNotesMultilingual", "source", "characterBook"]
  let payload :=
    if !keepRules && !(jget removedStep.1 "rules").isSome then
      jinsert removedStep.1 "rules" (.arr [])
    else removedStep.1
  (payload, promptStep.2 ++ removedStep.2)

/-- The meta transform of `tools::downgrade_uec`: drop the three provenance
fields, warning for each one present. -/
def downgradeMeta (meta : List (String × Json)) :
    List (String × Json) × List String :=
  let step1 : List (String × Json) × List String :=
    if (jget meta "originalCreatedAt").isSome then
      (jremoveEntry meta "originalCreatedAt",
        ["meta.originalCreatedAt was removed for v1 compatibility"])
    else (meta, [])
  let step2 : List (String × Json) × List String :=
    if (jget step1.1 "originalUpdatedAt").isSome then
      (jremoveEntry step1.1 "originalUpdatedAt",
        step1.2 ++ ["meta.originalUpdatedAt was removed for v1 compatibility"])
    else step1
  if (jget step2.1 "originalSource").isSome then
    (jremoveEntry step2.1 "originalSource",
      step2.2 ++ ["meta.originalSource was removed for v1 compatibility"])
  else step2

/-- `tools::downgrade_uec`. -/
def downgradeUec (card : Json) (targetVersion : String) (keepRules : Bool) :
    Except String DowngradeResult :=
  if targetVersion ≠ SCHEMA_VERSION then
    .error ("unsupported target version: " ++ targetVersion)
  else
    match (((card.get "schema").bind fun schema => schema.get "version").bind
        Json.asStr) with
    | none => .error "card must be an object with a schema"
    | some version =>
      if version = SCHEMA_VERSION then
        .ok { card := normalizeUec card, warnings := [] }
      else if version ≠ SCHEMA_VERSION_V2 then
        .error ("unsupported source version: " ++ version)
      else
        match card with
        | .obj root =>
          let root :=
            match jget root "schema" with
            | some (.obj schema) =>
              jinsert root "schema"
                (.obj (jinsert schema "version" (.str SCHEMA_VERSION)))
            | _ => root
          let payloadStep : List (String × Json) × List String :=
            match jget root "payload" with
            | some (.obj payload) =>
              let result := downgradePayload payload keepRules
              (jinsert root "payload" (.obj result.1), result.2)
            | _ => (root, [])
          let metaStep : List (String × Json) × List String :=
            match jget payloadStep.1 "meta" with
            | some (.obj meta) =>
              let result := downgradeMeta meta
              (jinsert payloadStep.1 "meta" (.obj result.1), result.2)
            | _ => (payloadStep.1, [])
          .ok { card := .obj metaStep.1,
                warnings := payloadStep.2 ++ metaStep.2 }
        | _ =>
          -- unreachable: a non-object has no schema.version string
          .error "card must be an object with a schema"

/-- `types::MergeOptions`. -/
structure MergeOptions where
  array : Option String
  conflict : Option String
deriving Repr, DecidableEq

/-- `types::MergeResult`. -/
structure MergeResult where
  value : Json
  conflicts : List String
deriving Repr, DecidableEq

/-- `BTreeSet<String>::insert`: keep the list strictly sorted without
duplicates. -/
def strInsSorted (s : String) : List String → List String
  | [] => [s]
  | x :: xs =>
    if strLtb s x then s :: x :: xs
    else if s = x then x :: xs
    else x :: strInsSorted s xs

/-- Collect the keys of two field lists into a sorted `BTreeSet` (the key
union used by the object branch of `tools::merge_values`). -/
def unionKeys (left right : List (String × Json)) : List String :=
  (left.map Prod.fst ++ right.map Prod.fst).foldl (fun acc k => strInsSorted k acc) []

theorem sizeOf_jget {fs : List (String × Json)} {k : String} {v : Json}
    (h : jget fs k = some v) : sizeOf v < sizeOf fs := by
  induction fs with
  | nil => simp [jget] at h
  | cons kv rest ih =>
    obtain ⟨k', v'⟩ := kv
    by_cases hk : k' = k
    · simp [jget, hk] at h
      subst h
      simp
      omega
    · simp [jget, hk] at h
      have := ih h
      simp
      omega

theorem sizeOf_jget_getD (fs : List (String × Json)) (k : String) :
    sizeOf ((jget fs k).getD .null) ≤ sizeOf fs := by
  cases hj : jget fs k with
  | none =>
    simp [Option.getD]
    cases fs with
    | nil => simp
    | cons kv rest => simp; omega
  | some v => simpa [Option.getD] using le_of_lt (sizeOf_jget hj)

mutual

/-- `tools::merge_values`: the conflict accumulator (a `BTreeSet<String>`)
is threaded explicitly. -/
def mergeValues (base incoming : Json) (path : String) (options : MergeOptions)
    (conflicts : List String) : Json × List String :=
  if incoming.isNull then (base, conflicts)
  else
    match base, incoming with
    | .arr left, .arr right =>
      if options.array = some "concat" then (.arr (left ++ right), conflicts)
      else
        (.arr right,
          if !jsonEq (.arr left) (.arr right) then strInsSorted path conflicts
          else conflicts)
    | .obj left, .obj right =>
      let merged := mergeFields left right (unionKeys left right) path options conflicts
      (.obj merged.1, merged.2)
    | _, _ =>
      ((if options.conflict = some "base" then base else incoming),
        if !jsonEq base incoming then strInsSorted path conflicts else conflicts)
termination_by (sizeOf base + sizeOf incoming, 0)
decreasing_by
  apply Prod.Lex.left
  simp
  omega

/-- The per-key loop of the object branch of `tools::merge_values`. -/
def mergeFields (left right : List (String × Json)) (keys : List String)
    (path : String) (options : MergeOptions) (conflicts : List String) :
    List (String × Json) × List String :=
  match keys with
  | [] => ([], conflicts)
  | key :: rest =>
    let nextPath := if strIsEmpty path then key else path ++ "." ++ key
    let leftValue := (jget left key).getD .null
    let rightValue := (jget right key).getD .null
    let entry :=
      if (jget right key).isSome then
        mergeValues leftValue rightValue nextPath options conflicts
      else (leftValue, conflicts)
    let tail := mergeFields left right rest path options entry.2
    ((key, entry.1) :: tail.1, tail.2)
termination_by (sizeOf left + sizeOf right + 1, keys.length)
decreasing_by
  · apply Prod.Lex.left
    exact Nat.lt_succ_of_le
      (Nat.add_le_add (sizeOf_jget_getD _ _) (sizeOf_jget_getD _ _))
  · apply Prod.Lex.right
    simp

end

/-- `tools::merge_uec`. -/
def mergeUec (base incoming : Json) (options : MergeOptions) : MergeResult :=
  { value := (mergeValues base incoming "" options []).1,
    conflicts := (mergeValues base incoming "" options []).2.filter
      fun item => !strIsEmpty item }

/-- `types::AssetReference`. -/
structure AssetReference where
  path : String
  kind : String
  value : Json
deriving Repr, DecidableEq

/-- `utils::is_likely_asset_string`. -/
def isLikelyAssetString (value : Json) : Bool :=
  match value.asStr with
  | some content =>
    content.startsWith "http://" || content.startsWith "https://" ||
      content.startsWith "data:"
  | none => false

/-- `utils::is_asset_locator_object`. -/
def isAssetLocatorObject (value : Json) : Bool :=
  match (value.get "type").bind Json.asStr with
  | some valueType =>
    valueType = "inline_base64" || valueType = "remote_url" ||
      valueType = "asset_ref"
  | none => false

mutual

/-- `tools::extract_assets_walk`. -/
def extractAssetsWalk (value : Json) (path : String) : List AssetReference :=
  if isLikelyAssetString value then
    [{ path := path, kind := "string", value := value }]
  else if isObject value && isAssetLocatorObject value then
    [{ path := path, kind := "locator", value := value }]
  else
    match value with
    | .arr items => extractAssetsWalkList items path 0
    | .obj fields => extractAssetsWalkFields fields path
    | _ => []

def extractAssetsWalkList (items : List Json) (path : String) (index : Nat) :
    List AssetReference :=
  match items with
  | [] => []
  | item :: rest =>
    extractAssetsWalk item (path ++ "[" ++ toString index ++ "]") ++
      extractAssetsWalkList rest path (index + 1)

def extractAssetsWalkFields (fields : List (String × Json)) (path : String) :
    List AssetReference :=
  match fields with
  | [] => []
  | (key, item) :: rest =>
    extractAssetsWalk item (if strIsEmpty path then key else path ++ "." ++ key) ++
      extractAssetsWalkFields rest path

end

/-- `tools::extract_assets`. -/
def extractAssets (card : Json) : List AssetReference :=
  extractAssetsWalk card ""

mutual

/-- The inner `walk` of `tools::rewrite_assets`. -/
def rewriteAssetsWalk (value : Json) (path : String)
    (mapper : AssetReference → Json) : Json :=
  if isLikelyAssetString value then
    mapper { path := path, kind := "string", value := value }
  else if isObject value && isAssetLocatorObject value then
    mapper { path := path, kind := "locator", value := value }
  else
    match value with
    | .arr items => .arr (rewriteAssetsWalkList items path 0 mapper)
    | .obj fields => .obj (rewriteAssetsWalkFields fields path mapper)
    | v => v

def rewriteAssetsWalkList (items : List Json) (path : String) (index : Nat)
    (mapper : AssetReference → Json) : List Json :=
  match items with
  | [] => []
  | item :: rest =>
    rewriteAssetsWalk item (path ++ "[" ++ toString index ++ "]") mapper ::
      rewriteAssetsWalkList rest path (index + 1) mapper

def rewriteAssetsWalkFields (fields : List (String × Json)) (path : String)
    (mapper : AssetReference → Json) : List (String × Json) :=
  match fields with
  | [] => []
  | (key, item) :: rest =>
    (key,
      rewriteAssetsWalk item
        (if strIsEmpty path then key else path ++ "." ++ key) mapper) ::
      rewriteAssetsWalkFields rest path mapper

end

/-- `tools::rewrite_assets`. -/
def rewriteAssets (card : Json) (mapper : AssetReference → Json) : Json :=
  rewriteAssetsWalk card "" mapper

/-- `types::LintResult`. -/
structure LintResult where
  ok : Bool
  warnings : List String
deriving Repr, DecidableEq

/-- The variant-id collection of the `selectedVariant` lint check
(`BTreeSet` membership is plain membership of the collected id list). -/
def lintVariantIds (variants : List Json) : List String :=
  variants.filterMap fun variant =>
    (variant.asObj.bind fun map => jget map "id").bind Json.asStr

/-- The inline-base64 size pass of `tools::lint_uec` (`data.len()` in Rust is
the byte length of the string). -/
def lintAssetWarnings (assets : List AssetReference) : List String :=
  assets.filterMap fun asset =>
    if asset.kind = "locator" &&
        ((asset.value.get "type").bind Json.asStr) = some "inline_base64" &&
        (match (asset.value.get "data").bind Json.asStr with
         | some data => data.utf8ByteSize > 200000
         | none => false) then
      some (asset.path ++ ": inline_base64 asset is very large")
    else none

/-- `tools::lint_uec`. -/
def lintUec (card : Json) : LintResult :=
  match (card.get "payload").bind Json.asObj with
  | none => { ok := false, warnings := ["root: not a valid UEC object shape"] }
  | some payload =>
    let warnings :=
      (match (jget payload "description").bind Json.asStr with
       | some description =>
         if strIsEmpty (strTrim description) then
           ["payload.description is an empty string"]
         else []
       | none => []) ++
      (match (jget payload "createdAt").bind Json.asI64,
          (jget payload "updatedAt").bind Json.asI64 with
       | some created, some updated =>
         if created > updated then
           ["payload.createdAt is greater than payload.updatedAt"]
         else []
       | _, _ => []) ++
      (match ((card.get "meta").bind Json.asObj) with
       | some meta =>
         match (jget meta "createdAt").bind Json.asI64,
             (jget meta "updatedAt").bind Json.asI64 with
         | some created, some updated =>
           if created > updated then
             ["meta.createdAt is greater than meta.updatedAt"]
           else []
         | _, _ => []
       | none => []) ++
      (if (((card.get "schema").bind fun schema => schema.get "version").bind
          Json.asStr) = some SCHEMA_VERSION_V2 then
        match (jget payload "scene").bind Json.asObj with
        | some scene =>
          match (jget scene "selectedVariant").bind Json.asStr,
              (jget scene "variants").bind Json.asArr with
          | some selectedVariant, some variants =>
            if !(lintVariantIds variants).contains selectedVariant then
              ["payload.scene.selectedVariant does not match any variant id"]
            else []
          | _, _ => []
        | none => []
      else []) ++
      lintAssetWarnings (extractAssets card)
    { ok := warnings.isEmpty, warnings := warnings }

/-! ### Association-list lemmas -/

theorem jget_jinsert_self (fs : List (String × Json)) (k : String) (v : Json) :
    jget (jinsert fs k v) k = some v := by
  induction fs with
  | nil => simp [jinsert, jget]
  | cons kv rest ih =>
    obtain ⟨k', v'⟩ := kv
    by_cases h : k' = k
    · simp [jinsert, jget, h]
    · simp [jinsert, jget, h, ih]

theorem jget_jinsert_ne (fs : List (String × Json)) {q k : String} (v : Json)
    (h : q ≠ k) : jget (jinsert fs k v) q = jget fs q := by
  have hne : ¬(k = q) := fun hh => h hh.symm
  induction fs with
  | nil => simp [jinsert, jget, hne]
  | cons kv rest ih =>
    obtain ⟨k', v'⟩ := kv
    by_cases hk : k' = k
    · subst hk
      simp [jinsert, jget, hne]
    · by_cases hq : k' = q
      · simp [jinsert, jget, hk, hq, h]
      · simp [jinsert, jget, hk, hq, ih]

theorem jget_jremoveEntry_ne (fs : List (String × Json)) {q k : String}
    (h : q ≠ k) : jget (jremoveEntry fs k) q = jget fs q := by
  have hne : ¬(k = q) := fun hh => h hh.symm
  induction fs with
  | nil => simp [jremoveEntry, jget]
  | cons kv rest ih =>
    obtain ⟨k', v'⟩ := kv
    by_cases hk : k' = k
    · subst hk
      simp [jremoveEntry, jget, hne]
    · by_cases hq : k' = q
      · simp [jremoveEntry, jget, hk, hq, h]
      · simp [jremoveEntry, jget, hk, hq, ih]

theorem jget_jremoveEntry_of_none (fs : List (String × Json)) {q : String}
    (k : String) (h : jget fs q = none) : jget (jremoveEntry fs k) q = none := by
  induction fs with
  | nil => simp [jremoveEntry, jget]
  | cons kv rest ih =>
    obtain ⟨k', v'⟩ := kv
    by_cases hq : k' = q
    · simp [jget, hq] at h
    · by_cases hk : k' = k
      · simp [jget, hq] at h
        simp [jremoveEntry, hk, h]
      · simp [jget, hq] at h
        simp [jremoveEntry, jget, hk, hq, ih h]

/-- Key uniqueness of an association list (the invariant real maps keep). -/
def keysNodup : List (String × Json) → Bool
  | [] => true
  | (k, _) :: rest => (jget rest k).isNone && keysNodup rest

theorem jget_jremoveEntry_self (fs : List (String × Json)) (k : String)
    (h : keysNodup fs = true) : jget (jremoveEntry fs k) k = none := by
  induction fs with
  | nil => simp [jremoveEntry, jget]
  | cons kv rest ih =>
    obtain ⟨k', v'⟩ := kv
    simp [keysNodup, Bool.and_eq_true] at h
    by_cases hk : k' = k
    · subst hk
      simpa [jremoveEntry, Option.isNone_iff_eq_none] using h.1
    · simp [jremoveEntry, jget, hk, ih h.2]

theorem keysNodup_jinsert (fs : List (String × Json)) (k : String) (v : Json)
    (h : keysNodup fs = true) : keysNodup (jinsert fs k v) = true := by
  induction fs with
  | nil => simp [jinsert, keysNodup, jget]
  | cons kv rest ih =>
    obtain ⟨k', v'⟩ := kv
    simp [keysNodup, Bool.and_eq_true] at h
    by_cases hk : k' = k
    · subst hk
      simp [jinsert, keysNodup, Bool.and_eq_true]
      exact ⟨h.1, h.2⟩
    · simp [jinsert, hk, keysNodup, Bool.and_eq_true]
      refine ⟨?_, ih h.2⟩
      rw [jget_jinsert_ne rest v hk]
      exact h.1

theorem keysNodup_jremoveEntry (fs : List (String × Json)) (k : String)
    (h : keysNodup fs = true) : keysNodup (jremoveEntry fs k) = true := by
  induction fs with
  | nil => simp [jremoveEntry, keysNodup]
  | cons kv rest ih =>
    obtain ⟨k', v'⟩ := kv
    simp [keysNodup, Bool.and_eq_true] at h
    by_cases hk : k' = k
    · simp [jremoveEntry, hk, h.2]
    · simp [jremoveEntry, hk, keysNodup, Bool.and_eq_true]
      exact ⟨jget_jremoveEntry_of_none rest k h.1, ih h.2⟩

theorem wf_obj_fields {fs : List (String × Json)}
    (h : Json.wf (.obj fs) = true) : Json.wfFields fs = true := by
  simpa [Json.wf] using h

theorem wfFields_keysNodup {fs : List (String × Json)}
    (h : Json.wfFields fs = true) : keysNodup fs = true := by
  induction fs with
  | nil => rfl
  | cons kv rest ih =>
    obtain ⟨k, v⟩ := kv
    simp [Json.wfFields, Bool.and_eq_true] at h
    simp [keysNodup, Bool.and_eq_true]
    exact ⟨h.1.1, ih h.2⟩

theorem wfFields_jget {fs : List (String × Json)} {k : String} {v : Json}
    (h : Json.wfFields fs = true) (hg : jget fs k = some v) :
    v.wf = true := by
  induction fs with
  | nil => simp [jget] at hg
  | cons kv rest ih =>
    obtain ⟨k', v'⟩ := kv
    simp [Json.wfFields, Bool.and_eq_true] at h
    by_cases hk : k' = k
    · simp [jget, hk] at hg
      exact hg ▸ h.1.2
    · simp [jget, hk] at hg
      exact ih h.2 hg

theorem wf_jget {fs : List (String × Json)} {k : String} {v : Json}
    (h : Json.wf (.obj fs) = true) (hg : jget fs k = some v) : v.wf = true :=
  wfFields_jget (wf_obj_fields h) hg

/-! ### Claim theorems -/

/-- The lint scenario document of claim C9 (whitespace-only description,
`createdAt` 20 after `updatedAt` 10, dangling `selectedVariant`). -/
def c9LintCard : Json := .obj [
  ("schema", .obj [("name", .str "UEC"), ("version", .str "2.0")]),
  ("kind", .str "character"),
  ("payload", .obj [
    ("id", .str "lint-case"),
    ("name", .str "Lint"),
    ("description", .str " "),
    ("createdAt", .num 20),
    ("updatedAt", .num 10),
    ("scene", .obj [
      ("id", .str "s1"),
      ("content", .str "c"),
      ("selectedVariant", .str "missing"),
      ("variants", .arr [.obj [
        ("id", .str "v1"), ("content", .str "alt"), ("createdAt", .num 1)]])])])]

/-- C9: `lint` on a payload with a whitespace-only `description`,
`createdAt:20 > updatedAt:10`, and a `scene.selectedVariant` naming no
existing variant id reports exactly three independent warnings (one per
finding), and nothing else. -/
theorem lint_scenario_three_warnings :
    lintUec c9LintCard =
      { ok := false,
        warnings := ["payload.description is an empty string",
                     "payload.createdAt is greater than payload.updatedAt",
                     "payload.scene.selectedVariant does not match any variant id"] } := by
  with_unfolding_all rfl

mutual

/-- C7: rewriting assets with the identity mapper (each recognized reference
is replaced by its own value) reconstructs the document unchanged, at every
path. -/
theorem rewriteAssetsWalk_id : ∀ (v : Json) (path : String),
    rewriteAssetsWalk v path (fun r => r.value) = v
  | .null, path => by simp [rewriteAssetsWalk, isLikelyAssetString, Json.asStr, isObject]
  | .bool b, path => by simp [rewriteAssetsWalk, isLikelyAssetString, Json.asStr, isObject]
  | .num n, path => by simp [rewriteAssetsWalk, isLikelyAssetString, Json.asStr, isObject]
  | .str s, path => by
      by_cases h : isLikelyAssetString (.str s) = true
      · simp [rewriteAssetsWalk, h]
      · simp [rewriteAssetsWalk, h, isObject]
  | .arr items, path => by
      simp [rewriteAssetsWalk, isLikelyAssetString, Json.asStr, isObject]
      exact rewriteAssetsWalkList_id items path 0
  | .obj fields, path => by
      by_cases h : isAssetLocatorObject (.obj fields) = true
      · simp [rewriteAssetsWalk, isLikelyAssetString, Json.asStr, isObject, h]
      · simp [rewriteAssetsWalk, isLikelyAssetString, Json.asStr, isObject, h]
        exact rewriteAssetsWalkFields_id fields path

theorem rewriteAssetsWalkList_id : ∀ (items : List Json) (path : String) (index : Nat),
    rewriteAssetsWalkList items path index (fun r => r.value) = items
  | [], _, _ => rfl
  | item :: rest, path, index => by
      simp [rewriteAssetsWalkList]
      exact ⟨rewriteAssetsWalk_id item _, rewriteAssetsWalkList_id rest path (index + 1)⟩

theorem rewriteAssetsWalkFields_id : ∀ (fields : List (String × Json)) (path : String),
    rewriteAssetsWalkFields fields path (fun r => r.value) = fields
  | [], _ => rfl
  | (key, item) :: rest, path => by
      simp [rewriteAssetsWalkFields]
      exact ⟨rewriteAssetsWalk_id item _, rewriteAssetsWalkFields_id rest path⟩

end

/-- C7: `rewriteAssets` with the identity mapper (every recognized asset
reference is mapped to its own value) returns a document deep-equal to the
input, for every document. -/
theorem rewriteAssets_identity (card : Json) :
    rewriteAssets card (fun r => r.value) = card :=
  rewriteAssetsWalk_id card ""

/-- C10: whenever `convert_uec_v1_to_v2` succeeds, the returned card carries
a top-level `meta` field that is an object — even when the input card had no
(or a non-object) `meta`. -/
theorem convert_meta_always_object (card out : Json)
    (h : convertUecV1ToV2 card = .ok out) :
    (out.get "meta").any isObject = true := by
  unfold convertUecV1ToV2 at h
  dsimp only at h
  split at h
  · exact absurd h (by simp)
  · split at h
    · exact absurd h (by simp)
    · split at h
      · exact absurd h (by simp)
      · split at h
        · rename_i root heq
          simp only [Except.ok.injEq] at h
          subst h
          simp [Json.get, jget_jinsert_self, isObject]
        · exact absurd h (by simp)

/-- A minimal valid v1 card without any `meta` field, used to witness
C10. -/
def c10Card : Json := .obj [
  ("schema", .obj [("name", .str "UEC"), ("version", .str "1.0")]),
  ("kind", .str "persona"),
  ("payload", .obj [("id", .str "p1"), ("title", .str "P")])]

/-- Witness for C10: converting `c10Card` (which has no `meta` at all)
succeeds and the theorem yields an object `meta` on its output. -/
theorem convert_meta_always_object_witness :
    ((Json.obj [
      ("schema", .obj [("name", .str "UEC"), ("version", .str "2.0")]),
      ("kind", .str "persona"),
      ("payload", .obj [("id", .str "p1"), ("title", .str "P")]),
      ("meta", .obj [])]).get "meta").any isObject = true :=
  convert_meta_always_object c10Card _ (by with_unfolding_all rfl)

/-! ### Merge lemmas -/

theorem mem_strInsSorted {q s : String} {l : List String} :
    q ∈ strInsSorted s l ↔ q = s ∨ q ∈ l := by
  induction l with
  | nil => simp [strInsSorted]
  | cons x xs ih =>
    by_cases h1 : strLtb s x
    · simp [strInsSorted, h1]
    · by_cases h2 : s = x
      · subst h2
        simp [strInsSorted, h1]
        try tauto
      · simp [strInsSorted, h1, h2, ih]
        tauto

theorem mem_foldl_strInsSorted {k : String} (xs : List String)
    (acc : List String) :
    k ∈ xs.foldl (fun acc k => strInsSorted k acc) acc ↔ k ∈ xs ∨ k ∈ acc := by
  induction xs generalizing acc with
  | nil => simp
  | cons x rest ih =>
    simp only [List.foldl_cons, ih, mem_strInsSorted, List.mem_cons]
    tauto

theorem mem_unionKeys {k : String} (l r : List (String × Json)) :
    k ∈ unionKeys l r ↔ k ∈ l.map Prod.fst ∨ k ∈ r.map Prod.fst := by
  unfold unionKeys
  rw [mem_foldl_strInsSorted]
  simp

theorem mem_of_jget_isSome {fs : List (String × Json)} {k : String} {v : Json}
    (h : jget fs k = some v) : k ∈ fs.map Prod.fst := by
  induction fs with
  | nil => simp [jget] at h
  | cons kv rest ih =>
    obtain ⟨k', v'⟩ := kv
    by_cases hk : k' = k
    · simp [hk]
    · simp [jget, hk] at h
      simp [ih h]

/-- Looking up a key absent from the incoming object in the object produced
by the merge loop: the base entry is kept verbatim. -/
theorem jget_mergeFields_rnone (l r : List (String × Json)) (keys : List String)
    (path : String) (o : MergeOptions) (c : List String) {k : String}
    (hr : jget r k = none) (hk : k ∈ keys) :
    jget (mergeFields l r keys path o c).1 k = some ((jget l k).getD .null) := by
  induction keys generalizing c with
  | nil => simp at hk
  | cons key rest ih =>
    by_cases hkey : key = k
    · subst hkey
      unfold mergeFields
      simp only []
      split
      · rename_i hsome
        rw [hr] at hsome
        simp at hsome
      · simp [jget]
    · rcases List.mem_cons.mp hk with h | h
      · exact absurd h.symm hkey
      · unfold mergeFields
        simp only []
        split
        · simp [jget, hkey, ih _ h]
        · simp [jget, hkey, ih _ h]

/-- C6: in `merge_values`, a null incoming value is a no-op — the base value
is returned and the conflict set is unchanged; and when both sides are
objects, a key present in base and absent from incoming keeps its base value
verbatim in the merged object. -/
theorem merge_null_noop_and_base_keys_kept :
    (∀ (base : Json) (path : String) (o : MergeOptions) (c : List String),
       mergeValues base .null path o c = (base, c)) ∧
    (∀ (l r : List (String × Json)) (k : String) (v : Json) (path : String)
       (o : MergeOptions) (c : List String),
       jget r k = none → jget l k = some v →
       (mergeValues (.obj l) (.obj r) path o c).1.get k = some v) := by
  constructor
  · intro base path o c
    unfold mergeValues
    simp [Json.isNull]
  · intro l r k v path o c hr hl
    have hj := jget_mergeFields_rnone l r (unionKeys l r) path o c hr
      ((mem_unionKeys l r).mpr (Or.inl (mem_of_jget_isSome hl)))
    rw [hl] at hj
    simp only [Option.getD_some] at hj
    unfold mergeValues
    simp only [Json.isNull, Bool.false_eq_true, if_false, Json.get]
    exact hj

/-- Witness for C6 at concrete inputs: a null incoming value leaves the base
and conflicts unchanged, and the base-only key `"a"` survives an object
merge verbatim. -/
theorem merge_null_noop_and_base_keys_kept_witness :
    (mergeValues (.obj [("a", .num 1)]) .null "p" ⟨none, none⟩ ["c"]
       = (.obj [("a", .num 1)], ["c"])) ∧
    (mergeValues (.obj [("a", .num 1)]) (.obj [("b", .num 2)]) "" ⟨none, none⟩
       []).1.get "a" = some (.num 1) :=
  ⟨merge_null_noop_and_base_keys_kept.1 _ "p" ⟨none, none⟩ ["c"],
   merge_null_noop_and_base_keys_kept.2 [("a", .num 1)] [("b", .num 2)] "a"
     (.num 1) "" ⟨none, none⟩ [] rfl rfl⟩

/-! ### Reflexivity of `serde_json` equality on well-formed values -/

theorem jget_isSome_of_mem_fst {fs : List (String × Json)} {k : String}
    (h : k ∈ fs.map Prod.fst) : (jget fs k).isSome = true := by
  induction fs with
  | nil => simp at h
  | cons kv rest ih =>
    obtain ⟨k', v'⟩ := kv
    by_cases hk : k' = k
    · simp [jget, hk]
    · rw [List.map_cons] at h
      rcases List.mem_cons.mp h with hc | hc
      · exact absurd hc.symm hk
      · simp [jget, hk, ih hc]

theorem wfFields_jget_of_mem {fs : List (String × Json)} {k : String} {v : Json}
    (hwf : Json.wfFields fs = true) (hm : (k, v) ∈ fs) :
    jget fs k = some v := by
  induction fs with
  | nil => simp at hm
  | cons kv rest ih =>
    obtain ⟨k', v'⟩ := kv
    simp [Json.wfFields, Bool.and_eq_true] at hwf
    rcases List.mem_cons.mp hm with h | h
    · have h1 : k = k' := congrArg Prod.fst h
      have h2 : v = v' := congrArg Prod.snd h
      subst h1
      subst h2
      simp [jget]
    · by_cases hk : k' = k
      · subst hk
        have : (jget rest k').isSome = true :=
          jget_isSome_of_mem_fst (List.mem_map_of_mem Prod.fst h)
        rw [hwf.1.1] at this
        simp at this
      · simp [jget, hk]
        exact ih hwf.2 h

theorem wfFields_mem_wf {fs : List (String × Json)} {k : String} {v : Json}
    (hwf : Json.wfFields fs = true) (hm : (k, v) ∈ fs) : v.wf = true :=
  wfFields_jget hwf (wfFields_jget_of_mem hwf hm)

mutual

theorem jsonEq_refl : ∀ (v : Json), v.wf = true → jsonEq v v = true
  | .null, _ => rfl
  | .bool b, _ => by simp [jsonEq]
  | .num n, _ => by simp [jsonEq]
  | .str s, _ => by simp [jsonEq]
  | .arr xs, h => by
      simp only [jsonEq]
      exact jsonEqList_refl xs (by simpa [Json.wf] using h)
  | .obj fs, h => by
      simp only [jsonEq, beq_self_eq_true, Bool.true_and]
      exact jsonEqFields_refl fs fs (fun kv hm =>
        ⟨wfFields_jget_of_mem (by simpa [Json.wf] using h) hm,
         wfFields_mem_wf (by simpa [Json.wf] using h) hm⟩)

theorem jsonEqList_refl : ∀ (xs : List Json),
    Json.wfList xs = true → jsonEqList xs xs = true
  | [], _ => rfl
  | x :: xs, h => by
      simp only [jsonEqList, Bool.and_eq_true]
      have h' : x.wf = true ∧ Json.wfList xs = true := by
        simpa [Json.wfList, Bool.and_eq_true] using h
      exact ⟨jsonEq_refl x h'.1, jsonEqList_refl xs h'.2⟩

theorem jsonEqFields_refl : ∀ (part fs : List (String × Json)),
    (∀ kv ∈ part, jget fs kv.1 = some kv.2 ∧ kv.2.wf = true) →
    jsonEqFields part fs = true
  | [], _, _ => rfl
  | (k, v) :: rest, fs, h => by
      have h1 := h (k, v) (List.mem_cons_self _ _)
      simp only [jsonEqFields, h1.1, Bool.and_eq_true]
      exact ⟨jsonEq_refl v h1.2,
        jsonEqFields_refl rest fs (fun kv hm => h kv (List.mem_cons_of_mem _ hm))⟩

end

/-- Merging a well-formed value with itself never touches the conflict
accumulator (proved jointly with the corresponding fact for the per-key
loop by functional induction on the merge recursion). -/
theorem mergeValues_self_conflicts :
    ∀ (b i : Json) (p : String) (o : MergeOptions) (c : List String),
      b = i → b.wf = true → (mergeValues b i p o c).2 = c := by
  refine mergeValues.induct
    (fun b i p o c => b = i → b.wf = true → (mergeValues b i p o c).2 = c)
    (fun l r keys p o c =>
      l = r → Json.wfFields l = true → (mergeFields l r keys p o c).2 = c)
    ?_ ?_ ?_ ?_ ?_ ?_ ?_
  · intro base incoming path o c hnull _ _
    unfold mergeValues
    simp [hnull]
  · intro path o c left right hconcat hnn hbi _
    unfold mergeValues
    simp [hnn, hconcat]
  · intro path o c left right hconcat hnn hbi hwf
    have hlr : left = right := by simpa using hbi
    subst hlr
    unfold mergeValues
    simp [hnn, hconcat, jsonEq_refl _ hwf]
  · intro path o c left right hnn ih hbi hwf
    have hlr : left = right := by simpa using hbi
    subst hlr
    unfold mergeValues
    simp only [Json.isNull, hnn]
    simp only [Bool.false_eq_true, if_false]
    exact ih rfl (by simpa [Json.wf] using hwf)
  · intro base incoming path o c hnn harr hobj hbi hwf
    subst hbi
    cases base with
    | null => simp [Json.isNull] at hnn
    | bool b =>
      unfold mergeValues
      simp [Json.isNull, jsonEq_refl _ hwf]
    | num n =>
      unfold mergeValues
      simp [Json.isNull, jsonEq_refl _ hwf]
    | str s =>
      unfold mergeValues
      simp [Json.isNull, jsonEq_refl _ hwf]
    | arr xs => exact (harr xs xs rfl rfl).elim
    | obj fs => exact (hobj fs fs rfl rfl).elim
  · intro left right path o c _ _
    unfold mergeFields
    simp
  · intro left right path o c field rest nextPath leftValue rightValue entry
      ih1 ih2 ihtail hlr hwf
    subst hlr
    have hentry : entry.2 = c := by
      unfold entry
      split
      · apply ih1 rfl
        unfold leftValue
        cases hj : jget left field with
        | none => simp [Option.getD, Json.wf]
        | some v =>
          simp only [Option.getD_some]
          exact wfFields_jget hwf hj
      · rfl
    have ht := ihtail rfl hwf
    rw [hentry] at ht
    unfold mergeFields
    simp only []
    show (mergeFields left left rest path o entry.2).2 = c
    rw [hentry]
    exact ht

/-- C3 (amended): merging any well-formed document with itself under any
options reports an empty conflict list; and under conflict strategy
`"base"`, wherever base and incoming differ at a position that is not a pair
of arrays (and not a pair of objects, where merging recurses), the merged
value is the base value.  (Two unequal arrays are an exception the code
carves out: the incoming array replaces the base array even under
`conflict: "base"`.) -/
theorem merge_self_no_conflicts_and_base_wins :
    (∀ (A : Json) (o : MergeOptions), A.wf = true →
       (mergeUec A A o).conflicts = []) ∧
    (∀ (A B : Json) (p : String) (o : MergeOptions) (c : List String),
       o.conflict = some "base" →
       (∀ l r, A = .arr l → B = .arr r → False) →
       (∀ l r, A = .obj l → B = .obj r → False) →
       (mergeValues A B p o c).1 = A) := by
  constructor
  · intro A o hwf
    unfold mergeUec
    rw [mergeValues_self_conflicts A A "" o [] rfl hwf]
    rfl
  · intro A B p o c hbase harr hobj
    unfold mergeValues
    split
    · rfl
    · split
      · exact (harr _ _ rfl rfl).elim
      · exact (hobj _ _ rfl rfl).elim
      · simp [hbase]

/-- Witness for C3: the reflexive-merge half at a concrete well-formed
document, and the base-wins half at a concrete scalar conflict. -/
theorem merge_self_no_conflicts_and_base_wins_witness :
    (mergeUec (.obj [("a", .num 1), ("b", .arr [.str "s"])])
        (.obj [("a", .num 1), ("b", .arr [.str "s"])])
        ⟨none, none⟩).conflicts = [] ∧
    (mergeValues (.num 1) (.num 2) "p" ⟨none, some "base"⟩ []).1 = .num 1 :=
  ⟨merge_self_no_conflicts_and_base_wins.1 _ ⟨none, none⟩ rfl,
   merge_self_no_conflicts_and_base_wins.2 (.num 1) (.num 2) "p"
     ⟨none, some "base"⟩ [] rfl (fun _ _ h => by cases h)
     (fun _ _ h => by cases h)⟩

/-- Counterexample to C3 as stated: with `conflict: "base"`, two unequal
arrays merge to the incoming array, not the base one — the merged value
disagrees with A exactly where A and B differ. -/
theorem merge_base_conflict_counterexample :
    (mergeUec (.obj [("x", .arr [.num 1])]) (.obj [("x", .arr [.num 2])])
        ⟨none, some "base"⟩).value
      = .obj [("x", .arr [.num 2])] ∧
    Json.obj [("x", .arr [.num 2])] ≠ .obj [("x", .arr [.num 1])] := by
  constructor
  · simp [mergeUec, mergeValues, mergeFields, unionKeys, strInsSorted, jget,
      jsonEq, jsonEqList, Json.isNull, strIsEmpty,
      show strLtb "x" "x" = false from rfl]
  · simp

/-! ### C1: unknown schema version isolates payload checks -/

/-- C1: on any otherwise well-formed character document whose
`schema.version` is a string that is neither "1.0" nor "2.0", validation
fails with exactly one error — the schema-level "unknown version" message —
and no payload-specific error (none of the errors is path-qualified under
`payload`); the schema, app_specific_settings, meta and extensions checks
all still run (they contribute no error exactly because the document
satisfies them). -/
theorem strData_append (a b : String) : (a ++ b).data = a.data ++ b.data := rfl

theorem unknown_version_single_error
    (root sf : List (String × Json)) (v : String) (strict : Bool)
    (hschema : jget root "schema" = some (.obj sf))
    (hname : jget sf "name" = some (.str "UEC"))
    (hver : jget sf "version" = some (.str v))
    (hunknown : knownVersion v = false)
    (hcompat : (jget sf "compat").all isString = true)
    (hkind : jget root "kind" = some (.str "character"))
    (hpayload : (jget root "payload").any isObject = true)
    (happ : validateAppSpecificSettings (jget root "app_specific_settings") = [])
    (hmeta : validateMeta (jget root "meta") = [])
    (hext : validateExtensions (jget root "extensions") = []) :
    validateUec (.obj root) strict =
      { ok := false,
        errors := [mkError "schema.version" ("unknown version \"" ++ v ++ "\"")] } ∧
    ∀ e ∈ (validateUec (.obj root) strict).errors,
      strStartsWith e "payload" = false := by
  have hv2 : ¬ (some v = some SCHEMA_VERSION_V2) := by
    intro h
    simp at h
    rw [h] at hunknown
    simp [knownVersion, SCHEMA_VERSION_V2] at hunknown
  have hschemaRes : validateSchema (jget root "schema") =
      ([mkError "schema.version" ("unknown version \"" ++ v ++ "\"")], some v) := by
    rw [hschema]
    dsimp only [validateSchema]
    rw [hname, hver]
    simp only [Option.any_some, isString, Option.bind_some, Json.asStr,
      Bool.not_true, Bool.false_eq_true, if_false, SCHEMA_NAME,
      Option.getD_some, hunknown, Bool.not_false, if_true, ne_eq,
      Option.some.injEq, Json.str.injEq, reduceIte]
    cases hc : jget sf "compat" with
    | none => simp [hunknown]
    | some c =>
      rw [hc] at hcompat
      simp only [Option.all_some] at hcompat
      cases c with
      | str s => simp [hunknown, isString]
      | null => simp [isString] at hcompat
      | bool b => simp [isString] at hcompat
      | num n => simp [isString] at hcompat
      | arr xs => simp [isString] at hcompat
      | obj fs => simp [isString] at hcompat
  obtain ⟨p, hp⟩ : ∃ p, jget root "payload" = some (.obj p) := by
    cases hj : jget root "payload" with
    | none => rw [hj] at hpayload; simp at hpayload
    | some x =>
      cases x with
      | obj pf => exact ⟨pf, rfl⟩
      | null => rw [hj] at hpayload; simp [isObject] at hpayload
      | bool b => rw [hj] at hpayload; simp [isObject] at hpayload
      | num n => rw [hj] at hpayload; simp [isObject] at hpayload
      | str s => rw [hj] at hpayload; simp [isObject] at hpayload
      | arr xs => rw [hj] at hpayload; simp [isObject] at hpayload
  have hkindRes : validateKind (jget root "kind") = [] := by
    rw [hkind]
    simp [validateKind]
  have hdisp : ∀ b1 strict2, validatePayloadDispatch (jget root "payload")
      (jget root "kind") b1 false strict2 = [] := by
    intro b1 strict2
    rw [hp]
    simp [validatePayloadDispatch]
  have hmain : validateUec (.obj root) strict =
      { ok := false,
        errors := [mkError "schema.version" ("unknown version \"" ++ v ++ "\"")] } := by
    simp only [validateUec]
    rw [hschemaRes]
    simp [hkindRes, hdisp, happ, hmeta, hext, hunknown, hv2]
  refine ⟨hmain, ?_⟩
  rw [hmain]
  intro e he
  simp at he
  subst he
  unfold strStartsWith mkError
  rw [strData_append]
  rw [show ("payload" : String).data = ['p','a','y','l','o','a','d'] from rfl]
  rw [show ("schema.version" ++ ": " : String).data =
    's' :: "chema.version: ".data from rfl]
  simp [List.isPrefixOf]


/-- Witness for C1: the spec scenario with version "9.9". -/
theorem unknown_version_single_error_witness :
    validateUec (.obj [
      ("schema", .obj [("name", .str "UEC"), ("version", .str "9.9")]),
      ("kind", .str "character"),
      ("payload", .obj [("id", .str "x")])]) false =
      { ok := false,
        errors := [mkError "schema.version" ("unknown version \"" ++ "9.9" ++ "\"")] } ∧
    ∀ e ∈ (validateUec (.obj [
      ("schema", .obj [("name", .str "UEC"), ("version", .str "9.9")]),
      ("kind", .str "character"),
      ("payload", .obj [("id", .str "x")])]) false).errors,
      strStartsWith e "payload" = false :=
  unknown_version_single_error
    [("schema", .obj [("name", .str "UEC"), ("version", .str "9.9")]),
     ("kind", .str "character"),
     ("payload", .obj [("id", .str "x")])]
    [("name", .str "UEC"), ("version", .str "9.9")] "9.9" false
    rfl rfl rfl rfl rfl rfl rfl rfl rfl rfl

/-! ### C8: `rules` synthesis in the downgrade -/

theorem jget_downgradeRemovedFields (p : List (String × Json))
    (fields : List String) {q : String} (hq : ¬ q ∈ fields) :
    jget (downgradeRemovedFields p fields).1 q = jget p q := by
  induction fields generalizing p with
  | nil => simp [downgradeRemovedFields]
  | cons f rest ih =>
    have hqf : q ≠ f := fun h => hq (h ▸ List.mem_cons_self f rest)
    have hqrest : ¬ q ∈ rest := fun h => hq (List.mem_cons_of_mem f h)
    unfold downgradeRemovedFields
    split
    · simp only []
      rw [ih _ hqrest, jget_jremoveEntry_ne _ hqf]
    · exact ih _ hqrest

/-- Keys other than `scene`/`scenes`/`defaultSceneId` are untouched by the
scene step of the downgrade. -/
theorem downgradeSceneStep_jget_ne (p : List (String × Json)) {q : String}
    (hq1 : q ≠ "scene") (hq2 : q ≠ "scenes") (hq3 : q ≠ "defaultSceneId") :
    jget (downgradeSceneStep p) q = jget p q := by
  unfold downgradeSceneStep
  cases hsc : jget p "scene" with
  | none => rfl
  | some scene =>
    cases scene with
    | obj sceneMap =>
      simp only []
      cases hid : jget (downgradeScene sceneMap) "id" with
      | some id =>
        simp only [hid]
        rw [jget_jinsert_ne _ _ hq3, jget_jinsert_ne _ _ hq2,
          jget_jremoveEntry_ne _ hq1]
      | none =>
        simp only [hid]
        rw [jget_jinsert_ne _ _ hq2, jget_jremoveEntry_ne _ hq1]
    | null => exact jget_jremoveEntry_ne _ hq1
    | bool b => exact jget_jremoveEntry_ne _ hq1
    | num n => exact jget_jremoveEntry_ne _ hq1
    | str s => exact jget_jremoveEntry_ne _ hq1
    | arr xs => exact jget_jremoveEntry_ne _ hq1

/-- Keys other than `promptTemplateId`/`systemPrompt` are untouched by the
prompt-template step of the downgrade. -/
theorem downgradePromptStep_jget_ne (p : List (String × Json)) {q : String}
    (hq1 : q ≠ "promptTemplateId") (hq2 : q ≠ "systemPrompt") :
    jget (downgradePromptStep p).1 q = jget p q := by
  unfold downgradePromptStep
  cases hpt : jget p "promptTemplateId" with
  | none => rfl
  | some promptTemplateId =>
    simp only []
    split
    · cases promptTemplateId.asStr with
      | some templateId =>
        simp only []
        rw [jget_jinsert_ne _ _ hq2, jget_jremoveEntry_ne _ hq1]
      | none =>
        simp only []
        rw [jget_jremoveEntry_ne _ hq1]
    · rw [jget_jremoveEntry_ne _ hq1]

/-- The `rules` key after the payload transform of `downgrade_uec`: the
empty array is synthesized exactly when `keep_rules` is false and the
payload had no `rules` key; otherwise the original `rules` entry (present or
absent) is left untouched. -/
theorem downgradePayload_rules (p : List (String × Json)) (kr : Bool) :
    jget (downgradePayload p kr).1 "rules" =
      (if kr = false ∧ jget p "rules" = none then some (.arr [])
       else jget p "rules") := by
  have hstep : jget (downgradeRemovedFields
      (downgradePromptStep (downgradeSceneStep p)).1
      ["fallbackModelId", "nickname", "creator", "creatorNotes",
       "creatorNotesMultilingual", "source", "characterBook"]).1 "rules"
      = jget p "rules" := by
    rw [jget_downgradeRemovedFields _ _ (by decide),
      downgradePromptStep_jget_ne _ (by decide) (by decide),
      downgradeSceneStep_jget_ne _ (by decide) (by decide) (by decide)]
  unfold downgradePayload
  simp only []
  split
  · rename_i hcond
    simp only [Bool.and_eq_true, Bool.not_eq_true'] at hcond
    rw [jget_jinsert_self]
    rw [hstep] at hcond
    have : jget p "rules" = none := by
      have h2 := hcond.2
      simp [Option.isSome_iff_ne_none] at h2
      exact h2
    simp [hcond.1, this]
  · rename_i hcond
    rw [hstep]
    rw [if_neg]
    intro hc
    apply hcond
    rw [hstep, hc.1, hc.2]
    rfl

/-- C8 (amended): for every v2 card, the downgraded payload has
`rules == []` exactly when `keep_rules` is false and the payload had no
`rules` key; otherwise the `rules` entry is left exactly as it was (an
absent key stays absent — in particular with `keep_rules` set and no
pre-existing `rules`, no empty array is synthesized). -/
theorem downgrade_rules_synthesis
    (root sf p : List (String × Json)) (kr : Bool)
    (hschema : jget root "schema" = some (.obj sf))
    (hver : jget sf "version" = some (.str "2.0"))
    (hpayload : jget root "payload" = some (.obj p)) :
    (downgradeUec (.obj root) "1.0" kr).map
      (fun R => (R.card.get "payload").bind (fun pl => pl.get "rules")) =
    .ok (if kr = false ∧ jget p "rules" = none then some (.arr [])
         else jget p "rules") := by
  have hver' : (((Json.obj root).get "schema").bind
      (fun schema => schema.get "version")).bind Json.asStr = some "2.0" := by
    simp [Json.get, hschema, hver, Json.asStr]
  unfold downgradeUec
  rw [if_neg (by simp [SCHEMA_VERSION])]
  rw [hver']
  simp only []
  rw [if_neg (by simp [SCHEMA_VERSION]), if_neg (by simp [SCHEMA_VERSION_V2])]
  rw [hschema]
  simp only []
  have hpay1 : jget (jinsert root "schema"
      (.obj (jinsert sf "version" (.str SCHEMA_VERSION)))) "payload"
      = some (.obj p) := by
    rw [jget_jinsert_ne _ _ (by decide)]
    exact hpayload
  rw [hpay1]
  simp only []
  set root2 := jinsert (jinsert root "schema"
      (.obj (jinsert sf "version" (.str SCHEMA_VERSION)))) "payload"
      (.obj (downgradePayload p kr).1) with hroot2
  have hpay2 : jget root2 "payload" = some (.obj (downgradePayload p kr).1) :=
    jget_jinsert_self _ _ _
  cases hm : jget root2 "meta" with
  | none =>
    simp [hm, Except.map, Json.get, hpay2, downgradePayload_rules]
  | some metaVal =>
    cases metaVal with
    | obj meta =>
      have hpay3 : jget (jinsert root2 "meta" (Json.obj (downgradeMeta meta).1))
          "payload" = some (.obj (downgradePayload p kr).1) := by
        rw [jget_jinsert_ne _ _ (by decide)]
        exact hpay2
      simp [hm, Except.map, Json.get, hpay3, downgradePayload_rules]
    | null => simp [hm, Except.map, Json.get, hpay2, downgradePayload_rules]
    | bool b => simp [hm, Except.map, Json.get, hpay2, downgradePayload_rules]
    | num n => simp [hm, Except.map, Json.get, hpay2, downgradePayload_rules]
    | str s => simp [hm, Except.map, Json.get, hpay2, downgradePayload_rules]
    | arr xs => simp [hm, Except.map, Json.get, hpay2, downgradePayload_rules]

/-- Witness for C8: a card with no `rules` and `keep_rules = false` gets the
synthesized empty array. -/
theorem downgrade_rules_synthesis_witness :
    (downgradeUec (.obj [
      ("schema", .obj [("name", .str "UEC"), ("version", .str "2.0")]),
      ("kind", .str "character"),
      ("payload", .obj [("id", .str "x")])]) "1.0" false).map
      (fun R => (R.card.get "payload").bind (fun pl => pl.get "rules")) =
    .ok (if false = false ∧ jget [("id", Json.str "x")] "rules" = none
         then some (.arr []) else jget [("id", Json.str "x")] "rules") :=
  downgrade_rules_synthesis
    [("schema", .obj [("name", .str "UEC"), ("version", .str "2.0")]),
     ("kind", .str "character"), ("payload", .obj [("id", .str "x")])]
    [("name", .str "UEC"), ("version", .str "2.0")]
    [("id", .str "x")] false rfl rfl rfl

/-- Counterexample to C8 as stated: with `keep_rules = true` and no
pre-existing `rules` key, the downgraded payload has NO `rules` key at all —
the claimed empty array is not synthesized. -/
theorem downgrade_rules_counterexample :
    (downgradeUec (.obj [
      ("schema", .obj [("name", .str "UEC"), ("version", .str "2.0")]),
      ("kind", .str "character"),
      ("payload", .obj [("id", .str "x")])]) "1.0" true).map
      (fun R => (R.card.get "payload").bind (fun pl => pl.get "rules")) =
      .ok none ∧
    (none : Option Json) ≠ some (.arr []) := by
  constructor
  · with_unfolding_all rfl
  · simp

/-! ### C5: the v1 → v2 conversion scenario -/

/-- Running `convert_uec_v1_to_v2` on a valid v1 object card rewrites the
schema version and replaces the payload with `convertPayload` of the old
payload. -/
theorem convertUec_of_valid (root sf p : List (String × Json))
    (hvalid : (validateUec (.obj root) false).ok = true)
    (hschema : jget root "schema" = some (.obj sf))
    (hv : jget sf "version" = some (.str "1.0"))
    (hpayload : jget root "payload" = some (.obj p)) :
    ∃ rootOut, convertUecV1ToV2 (.obj root) = .ok (.obj rootOut) ∧
      jget rootOut "payload" = some (.obj (convertPayload p)) ∧
      jget rootOut "schema" =
        some (.obj (jinsert sf "version" (.str SCHEMA_VERSION_V2))) := by
  unfold convertUecV1ToV2
  rw [if_neg (by simp [isObject])]
  try simp only []
  rw [if_neg (by simp [hvalid])]
  try simp only []
  rw [if_neg (by simp [Json.get, hschema, hv, Json.asStr, SCHEMA_VERSION])]
  try simp only []
  rw [hschema]
  try simp only []
  have hpay1 : jget (jinsert root "schema"
      (.obj (jinsert sf "version" (.str SCHEMA_VERSION_V2)))) "payload"
      = some (.obj p) := by
    rw [jget_jinsert_ne _ _ (by decide)]
    exact hpayload
  rw [hpay1]
  simp only []
  set root2 := jinsert (jinsert root "schema"
      (.obj (jinsert sf "version" (.str SCHEMA_VERSION_V2)))) "payload"
      (.obj (convertPayload p)) with hroot2
  have hpay2 : jget root2 "payload" = some (.obj (convertPayload p)) :=
    jget_jinsert_self _ _ _
  have hsch2 : jget root2 "schema" =
      some (.obj (jinsert sf "version" (.str SCHEMA_VERSION_V2))) := by
    rw [jget_jinsert_ne _ _ (by decide), jget_jinsert_self]
  have hfinal : ∀ M, jget (jinsert root2 "meta" (Json.obj M)) "payload"
      = some (.obj (convertPayload p)) := by
    intro M
    rw [jget_jinsert_ne _ _ (by decide)]
    exact hpay2
  have hfinal2 : ∀ M, jget (jinsert root2 "meta" (Json.obj M)) "schema"
      = some (.obj (jinsert sf "version" (.str SCHEMA_VERSION_V2))) := by
    intro M
    rw [jget_jinsert_ne _ _ (by decide)]
    exact hsch2
  cases hm : jget root2 "meta" with
  | none => exact ⟨_, rfl, hfinal _, hfinal2 _⟩
  | some metaVal =>
    cases metaVal with
    | obj meta => exact ⟨_, rfl, hfinal _, hfinal2 _⟩
    | null => exact ⟨_, rfl, hfinal _, hfinal2 _⟩
    | bool b => exact ⟨_, rfl, hfinal _, hfinal2 _⟩
    | num n => exact ⟨_, rfl, hfinal _, hfinal2 _⟩
    | str s => exact ⟨_, rfl, hfinal _, hfinal2 _⟩
    | arr xs => exact ⟨_, rfl, hfinal _, hfinal2 _⟩

/-- Keys other than `scenes`/`scene` are untouched by the scene-folding
step of the conversion. -/
theorem convertScenesStep_jget_ne (p : List (String × Json)) {q : String}
    (hq1 : q ≠ "scenes") (hq2 : q ≠ "scene") :
    jget (convertScenesStep p) q = jget p q := by
  unfold convertScenesStep
  cases hsc : jget p "scenes" with
  | none => rfl
  | some scenes =>
    simp only []
    cases scenes with
    | arr sceneItems =>
      simp only []
      split
      · exact jget_jremoveEntry_ne _ hq1
      · cases hp : (((jget p "defaultSceneId").bind Json.asStr).bind fun id =>
            sceneItems.find? fun scene =>
              (scene.get "id").bind Json.asStr = some id).orElse
            (fun _ => sceneItems.head?) with
        | none => simp only [hp]; exact jget_jremoveEntry_ne _ hq1
        | some picked =>
          cases picked with
          | obj pickedScene =>
            simp only [hp]
            rw [jget_jremoveEntry_ne _ hq1, jget_jinsert_ne _ _ hq2]
          | null => simp only [hp]; exact jget_jremoveEntry_ne _ hq1
          | bool b => simp only [hp]; exact jget_jremoveEntry_ne _ hq1
          | num n => simp only [hp]; exact jget_jremoveEntry_ne _ hq1
          | str s => simp only [hp]; exact jget_jremoveEntry_ne _ hq1
          | arr xs => simp only [hp]; exact jget_jremoveEntry_ne _ hq1
    | null => exact jget_jremoveEntry_ne _ hq1
    | bool b => exact jget_jremoveEntry_ne _ hq1
    | num n => exact jget_jremoveEntry_ne _ hq1
    | str s => exact jget_jremoveEntry_ne _ hq1
    | obj fs => exact jget_jremoveEntry_ne _ hq1

/-- C5: converting any valid v1 character document whose payload has the
scenario scene list, default scene id `scene-1`, system prompt
`_ID:template-1` and rules `["r1"]` succeeds, and the resulting payload has
no `rules`/`scenes`/`defaultSceneId` keys, a `scene` whose
`selectedVariant` is the number 0, `promptTemplateId == "template-1"`, and
`systemPrompt == null`. -/
theorem convert_scenario_payload (root sf p : List (String × Json))
    (hwf : (Json.obj root).wf = true)
    (hvalid : (validateUec (.obj root) false).ok = true)
    (hschema : jget root "schema" = some (.obj sf))
    (hv : jget sf "version" = some (.str "1.0"))
    (hpayload : jget root "payload" = some (.obj p))
    (hscenes : jget p "scenes" = some (.arr [.obj
      [("id", .str "scene-1"), ("content", .str "hello"),
       ("selectedVariantId", .null)]]))
    (hdsi : jget p "defaultSceneId" = some (.str "scene-1"))
    (hsp : jget p "systemPrompt" = some (.str "_ID:template-1"))
    (_hrules : jget p "rules" = some (.arr [.str "r1"])) :
    ∃ rootOut pOut, convertUecV1ToV2 (.obj root) = .ok (.obj rootOut) ∧
      jget rootOut "payload" = some (.obj pOut) ∧
      jget pOut "rules" = none ∧
      jget pOut "scenes" = none ∧
      jget pOut "defaultSceneId" = none ∧
      (∃ sOut, jget pOut "scene" = some (.obj sOut) ∧
        jget sOut "selectedVariant" = some (.num 0)) ∧
      jget pOut "promptTemplateId" = some (.str "template-1") ∧
      jget pOut "systemPrompt" = some .null := by
  obtain ⟨rootOut, hconv, hpayOut, _⟩ :=
    convertUec_of_valid root sf p hvalid hschema hv hpayload
  refine ⟨rootOut, convertPayload p, hconv, hpayOut, ?_⟩
  have hnodup : keysNodup p = true := by
    have hpwf : (Json.obj p).wf = true :=
      wfFields_jget (wf_obj_fields hwf) hpayload
    exact wfFields_keysNodup (wf_obj_fields hpwf)
  -- step 1: remove rules
  set p1 := jremoveEntry p "rules" with hp1
  have hn1 : keysNodup p1 = true := keysNodup_jremoveEntry _ _ hnodup
  have h1rules : jget p1 "rules" = none := jget_jremoveEntry_self _ _ hnodup
  have h1scenes : jget p1 "scenes" = jget p "scenes" :=
    jget_jremoveEntry_ne _ (by decide)
  have h1dsi : jget p1 "defaultSceneId" = jget p "defaultSceneId" :=
    jget_jremoveEntry_ne _ (by decide)
  have h1sp : jget p1 "systemPrompt" = jget p "systemPrompt" :=
    jget_jremoveEntry_ne _ (by decide)
  -- step 2: fold scenes
  have hscstep : convertScenesStep p1 =
      jremoveEntry (jinsert p1 "scene" (.obj
        [("id", .str "scene-1"), ("content", .str "hello"),
         ("selectedVariant", .num 0)])) "scenes" := by
    unfold convertScenesStep
    rw [h1scenes.trans hscenes, h1dsi.trans hdsi]
    rfl
  set sceneOut : List (String × Json) :=
    [("id", .str "scene-1"), ("content", .str "hello"),
     ("selectedVariant", .num 0)] with hsceneOut
  set p2 := jinsert p1 "scene" (.obj sceneOut) with hp2
  have hn2 : keysNodup p2 = true := keysNodup_jinsert _ _ _ hn1
  set p3 := jremoveEntry p2 "scenes" with hp3
  have hn3 : keysNodup p3 = true := keysNodup_jremoveEntry _ _ hn2
  have h3rules : jget p3 "rules" = none := by
    rw [hp3, jget_jremoveEntry_ne _ (by decide), hp2,
      jget_jinsert_ne _ _ (by decide)]
    exact h1rules
  have h3scenes : jget p3 "scenes" = none := jget_jremoveEntry_self _ _ hn2
  have h3dsi : jget p3 "defaultSceneId" = some (.str "scene-1") := by
    rw [hp3, jget_jremoveEntry_ne _ (by decide), hp2,
      jget_jinsert_ne _ _ (by decide), h1dsi, hdsi]
  have h3sp : jget p3 "systemPrompt" = some (.str "_ID:template-1") := by
    rw [hp3, jget_jremoveEntry_ne _ (by decide), hp2,
      jget_jinsert_ne _ _ (by decide), h1sp, hsp]
  have h3scene : jget p3 "scene" = some (.obj sceneOut) := by
    rw [hp3, jget_jremoveEntry_ne _ (by decide), hp2, jget_jinsert_self]
  -- step 3: remove defaultSceneId
  set p4 := jremoveEntry p3 "defaultSceneId" with hp4
  have hn4 : keysNodup p4 = true := keysNodup_jremoveEntry _ _ hn3
  have h4rules : jget p4 "rules" = none := by
    rw [hp4, jget_jremoveEntry_ne _ (by decide)]
    exact h3rules
  have h4scenes : jget p4 "scenes" = none := by
    rw [hp4, jget_jremoveEntry_ne _ (by decide)]
    exact h3scenes
  have h4dsi : jget p4 "defaultSceneId" = none :=
    jget_jremoveEntry_self _ _ hn3
  have h4sp : jget p4 "systemPrompt" = some (.str "_ID:template-1") := by
    rw [hp4, jget_jremoveEntry_ne _ (by decide)]
    exact h3sp
  have h4scene : jget p4 "scene" = some (.obj sceneOut) := by
    rw [hp4, jget_jremoveEntry_ne _ (by decide)]
    exact h3scene
  -- step 4: extract the prompt template
  have hpayOutEq : convertPayload p =
      jinsert (jinsert p4 "promptTemplateId" (.str "template-1"))
        "systemPrompt" .null := by
    unfold convertPayload convertPromptStep
    rw [← hp1, hscstep, ← hp4, h4sp]
    try simp only []
    rw [show strStartsWith "_ID:template-1" "_ID:" = true from rfl]
    simp only [if_true]
    rw [show strDrop "_ID:template-1" 4 = "template-1" from rfl]
  rw [hpayOutEq]
  refine ⟨?_, ?_, ?_, ⟨sceneOut, ?_, ?_⟩, ?_, ?_⟩
  · rw [jget_jinsert_ne _ _ (by decide), jget_jinsert_ne _ _ (by decide)]
    exact h4rules
  · rw [jget_jinsert_ne _ _ (by decide), jget_jinsert_ne _ _ (by decide)]
    exact h4scenes
  · rw [jget_jinsert_ne _ _ (by decide), jget_jinsert_ne _ _ (by decide)]
    exact h4dsi
  · rw [jget_jinsert_ne _ _ (by decide), jget_jinsert_ne _ _ (by decide)]
    exact h4scene
  · rfl
  · rw [jget_jinsert_ne _ _ (by decide), jget_jinsert_self]
  · rw [jget_jinsert_self]

/-- The scenario payload of C5. -/
def c5Payload : List (String × Json) :=
  [("id", .str "c1"), ("name", .str "Char"),
   ("scenes", .arr [.obj [("id", .str "scene-1"), ("content", .str "hello"),
     ("selectedVariantId", .null)]]),
   ("defaultSceneId", .str "scene-1"),
   ("systemPrompt", .str "_ID:template-1"),
   ("rules", .arr [.str "r1"])]

/-- The scenario document of C5: a valid v1 character card. -/
def c5Root : List (String × Json) :=
  [("schema", .obj [("name", .str "UEC"), ("version", .str "1.0")]),
   ("kind", .str "character"),
   ("payload", .obj c5Payload)]

/-- Witness for C5 at the concrete scenario card. -/
theorem convert_scenario_payload_witness :
    ∃ rootOut pOut, convertUecV1ToV2 (.obj c5Root) = .ok (.obj rootOut) ∧
      jget rootOut "payload" = some (.obj pOut) ∧
      jget pOut "rules" = none ∧
      jget pOut "scenes" = none ∧
      jget pOut "defaultSceneId" = none ∧
      (∃ sOut, jget pOut "scene" = some (.obj sOut) ∧
        jget sOut "selectedVariant" = some (.num 0)) ∧
      jget pOut "promptTemplateId" = some (.str "template-1") ∧
      jget pOut "systemPrompt" = some .null :=
  convert_scenario_payload c5Root
    [("name", .str "UEC"), ("version", .str "1.0")] c5Payload
    (by with_unfolding_all rfl) (by with_unfolding_all rfl)
    rfl rfl rfl rfl rfl rfl rfl

/-! ### C4: v1 → v2 → v1 round trip -/

/-- Keys other than the two selected-variant keys are untouched by the
conversion scene rename. -/
theorem convertScene_jget_ne (sm : List (String × Json)) {q : String}
    (hq1 : q ≠ "selectedVariantId") (hq2 : q ≠ "selectedVariant") :
    jget (convertScene sm) q = jget sm q := by
  unfold convertScene
  cases hs : jget sm "selectedVariantId" with
  | none => rfl
  | some selected =>
    simp only []
    split
    · rw [jget_jinsert_ne _ _ hq2, jget_jremoveEntry_ne _ hq1]
    · rw [jget_jinsert_ne _ _ hq2, jget_jremoveEntry_ne _ hq1]

/-- Keys other than the two selected-variant keys are untouched by the
downgrade scene rename. -/
theorem downgradeScene_jget_ne (sm : List (String × Json)) {q : String}
    (hq1 : q ≠ "selectedVariant") (hq2 : q ≠ "selectedVariantId") :
    jget (downgradeScene sm) q = jget sm q := by
  unfold downgradeScene
  cases hs : jget sm "selectedVariant" with
  | none => rfl
  | some selected =>
    simp only []
    cases selected with
    | num n =>
      simp only []
      split
      · rw [jget_jinsert_ne _ _ hq2, jget_jremoveEntry_ne _ hq1]
      · rw [jget_jinsert_ne _ _ hq2, jget_jremoveEntry_ne _ hq1]
    | null => rw [jget_jinsert_ne _ _ hq2, jget_jremoveEntry_ne _ hq1]
    | bool b => rw [jget_jinsert_ne _ _ hq2, jget_jremoveEntry_ne _ hq1]
    | str s => rw [jget_jinsert_ne _ _ hq2, jget_jremoveEntry_ne _ hq1]
    | arr xs => rw [jget_jinsert_ne _ _ hq2, jget_jremoveEntry_ne _ hq1]
    | obj fs => rw [jget_jinsert_ne _ _ hq2, jget_jremoveEntry_ne _ hq1]

/-- Keys other than `systemPrompt`/`promptTemplateId` are untouched by the
conversion prompt-template step. -/
theorem convertPromptStep_jget_ne (p : List (String × Json)) {q : String}
    (hq1 : q ≠ "promptTemplateId") (hq2 : q ≠ "systemPrompt") :
    jget (convertPromptStep p) q = jget p q := by
  unfold convertPromptStep
  cases hs : jget p "systemPrompt" with
  | none => rfl
  | some sp =>
    cases sp with
    | str s =>
      simp only []
      split
      · rw [jget_jinsert_ne _ _ hq2, jget_jinsert_ne _ _ hq1]
      · rfl
    | null => rfl
    | bool b => rfl
    | num n => rfl
    | arr xs => rfl
    | obj fs => rfl

/-- A payload whose `scenes` was a single scene object keeps `scene` through
the whole conversion payload transform. -/
theorem convertPayload_scene (p sm : List (String × Json))
    (hscenes : jget p "scenes" = some (.arr [.obj sm])) :
    jget (convertPayload p) "scene" = some (.obj (convertScene sm)) := by
  unfold convertPayload
  rw [convertPromptStep_jget_ne _ (by decide) (by decide),
    jget_jremoveEntry_ne _ (by decide)]
  unfold convertScenesStep
  rw [show jget (jremoveEntry p "rules") "scenes" = some (.arr [.obj sm]) by
    rw [jget_jremoveEntry_ne _ (by decide)]; exact hscenes]
  simp only [List.isEmpty_cons, Bool.false_eq_true, if_false]
  have hpicked : ∀ (d : Option String),
      ((d.bind fun id => [Json.obj sm].find? fun scene =>
          (scene.get "id").bind Json.asStr = some id).orElse
        (fun _ => [Json.obj sm].head?)) = some (.obj sm) := by
    intro d
    cases d with
    | none => rfl
    | some id =>
      have hb : ((some id).bind fun id => [Json.obj sm].find? fun scene =>
          decide ((scene.get "id").bind Json.asStr = some id)) =
          [Json.obj sm].find? fun scene =>
            decide ((scene.get "id").bind Json.asStr = some id) := rfl
      rw [hb]
      cases hf : [Json.obj sm].find? fun scene =>
          decide ((scene.get "id").bind Json.asStr = some id) with
      | none => rfl
      | some x =>
        have hmem := List.mem_of_find?_eq_some hf
        simp at hmem
        subst hmem
        rfl
  rw [hpicked]
  rw [jget_jremoveEntry_ne _ (by decide), jget_jinsert_self]

/-- A payload whose `scene` is an object gets a singleton `scenes` array
holding the renamed scene through the whole downgrade payload transform. -/
theorem downgradePayload_scenes (cp sm2 : List (String × Json)) (kr : Bool)
    (hscene : jget cp "scene" = some (.obj sm2)) :
    jget (downgradePayload cp kr).1 "scenes" =
      some (.arr [.obj (downgradeScene sm2)]) := by
  have hscst : jget (downgradeSceneStep cp) "scenes" =
      some (.arr [.obj (downgradeScene sm2)]) := by
    unfold downgradeSceneStep
    rw [hscene]
    simp only []
    cases hid : jget (downgradeScene sm2) "id" with
    | some id =>
      simp only [hid]
      rw [jget_jinsert_ne _ _ (by decide), jget_jinsert_self]
    | none =>
      simp only [hid]
      rw [jget_jinsert_self]
  unfold downgradePayload
  simp only []
  split
  · rw [jget_jinsert_ne _ _ (by decide),
      jget_downgradeRemovedFields _ _ (by decide),
      downgradePromptStep_jget_ne _ (by decide) (by decide)]
    exact hscst
  · rw [jget_downgradeRemovedFields _ _ (by decide),
      downgradePromptStep_jget_ne _ (by decide) (by decide)]
    exact hscst

/-- Downgrading any card whose schema object carries version "2.0" succeeds
and produces the transformed payload with schema version "1.0". -/
theorem downgradeUec_v2_obj (root sf p : List (String × Json)) (kr : Bool)
    (hschema : jget root "schema" = some (.obj sf))
    (hver : jget sf "version" = some (.str "2.0"))
    (hpayload : jget root "payload" = some (.obj p)) :
    ∃ R, downgradeUec (.obj root) "1.0" kr = .ok R ∧
      R.card.get "payload" = some (.obj (downgradePayload p kr).1) ∧
      ((R.card.get "schema").bind fun s => s.get "version")
        = some (.str "1.0") := by
  have hver' : (((Json.obj root).get "schema").bind
      (fun schema => schema.get "version")).bind Json.asStr = some "2.0" := by
    simp [Json.get, hschema, hver, Json.asStr]
  unfold downgradeUec
  rw [if_neg (by simp [SCHEMA_VERSION])]
  rw [hver']
  try simp only []
  rw [if_neg (by simp [SCHEMA_VERSION]), if_neg (by simp [SCHEMA_VERSION_V2])]
  rw [hschema]
  try simp only []
  have hpay1 : jget (jinsert root "schema"
      (.obj (jinsert sf "version" (.str SCHEMA_VERSION)))) "payload"
      = some (.obj p) := by
    rw [jget_jinsert_ne _ _ (by decide)]
    exact hpayload
  rw [hpay1]
  try simp only []
  set root2 := jinsert (jinsert root "schema"
      (.obj (jinsert sf "version" (.str SCHEMA_VERSION)))) "payload"
      (.obj (downgradePayload p kr).1) with hroot2
  have hpay2 : jget root2 "payload" = some (.obj (downgradePayload p kr).1) :=
    jget_jinsert_self _ _ _
  have hsch2 : ((Json.obj root2).get "schema").bind (fun s => s.get "version")
      = some (.str "1.0") := by
    simp only [Json.get, hroot2]
    rw [jget_jinsert_ne _ _ (by decide), jget_jinsert_self]
    simp [Json.get, jget_jinsert_self, SCHEMA_VERSION]
  have hfinal : ∀ M, jget (jinsert root2 "meta" (Json.obj M)) "payload"
      = some (.obj (downgradePayload p kr).1) := by
    intro M
    rw [jget_jinsert_ne _ _ (by decide)]
    exact hpay2
  have hfinal2 : ∀ M, ((Json.obj (jinsert root2 "meta" (Json.obj M))).get
      "schema").bind (fun s => s.get "version") = some (.str "1.0") := by
    intro M
    simpa [Json.get, jget_jinsert_ne _ _ (show ("schema" : String) ≠ "meta"
      by decide)] using hsch2
  cases hm : jget root2 "meta" with
  | none => exact ⟨_, rfl, hpay2, hsch2⟩
  | some metaVal =>
    cases metaVal with
    | obj meta => exact ⟨_, rfl, hfinal _, hfinal2 _⟩
    | null => exact ⟨_, rfl, hpay2, hsch2⟩
    | bool b => exact ⟨_, rfl, hpay2, hsch2⟩
    | num n => exact ⟨_, rfl, hpay2, hsch2⟩
    | str s => exact ⟨_, rfl, hpay2, hsch2⟩
    | arr xs => exact ⟨_, rfl, hpay2, hsch2⟩

/-- C4: for every valid v1 document, downgrading the conversion result back
to v1 succeeds with schema version "1.0" (for either value of
`keep_rules`); and when the document had exactly one scene object in
`payload.scenes`, the downgraded card carries a single scene with the same
id. -/
theorem convert_downgrade_roundtrip (root sf p : List (String × Json))
    (kr : Bool)
    (hvalid : (validateUec (.obj root) false).ok = true)
    (hschema : jget root "schema" = some (.obj sf))
    (hv : jget sf "version" = some (.str "1.0"))
    (hpayload : jget root "payload" = some (.obj p)) :
    ∃ rootOut R, convertUecV1ToV2 (.obj root) = .ok (.obj rootOut) ∧
      downgradeUec (.obj rootOut) "1.0" kr = .ok R ∧
      ((R.card.get "schema").bind fun s => s.get "version")
        = some (.str "1.0") ∧
      (∀ sm, jget p "scenes" = some (.arr [.obj sm]) →
        ∃ smOut, (R.card.get "payload").bind (fun pl => pl.get "scenes")
            = some (.arr [.obj smOut]) ∧
          jget smOut "id" = jget sm "id") := by
  obtain ⟨rootOut, hconv, hpayOut, hschOut⟩ :=
    convertUec_of_valid root sf p hvalid hschema hv hpayload
  obtain ⟨R, hdown, hRpay, hRver⟩ :=
    downgradeUec_v2_obj rootOut (jinsert sf "version" (.str SCHEMA_VERSION_V2))
      (convertPayload p) kr hschOut (jget_jinsert_self _ _ _) hpayOut
  refine ⟨rootOut, R, hconv, hdown, hRver, ?_⟩
  intro sm hsm
  refine ⟨downgradeScene (convertScene sm), ?_, ?_⟩
  · rw [hRpay]
    simp only [Option.bind_some, Json.get]
    exact downgradePayload_scenes (convertPayload p) (convertScene sm) kr
      (convertPayload_scene p sm hsm)
  · rw [downgradeScene_jget_ne _ (by decide) (by decide),
      convertScene_jget_ne _ (by decide) (by decide)]

/-- Witness for C4 at the concrete single-scene card `c5Root`. -/
theorem convert_downgrade_roundtrip_witness :
    ∃ rootOut R, convertUecV1ToV2 (.obj c5Root) = .ok (.obj rootOut) ∧
      downgradeUec (.obj rootOut) "1.0" false = .ok R ∧
      ((R.card.get "schema").bind fun s => s.get "version")
        = some (.str "1.0") ∧
      (∀ sm, jget c5Payload "scenes" = some (.arr [.obj sm]) →
        ∃ smOut, (R.card.get "payload").bind (fun pl => pl.get "scenes")
            = some (.arr [.obj smOut]) ∧
          jget smOut "id" = jget sm "id") :=
  convert_downgrade_roundtrip c5Root
    [("name", .str "UEC"), ("version", .str "1.0")] c5Payload false
    (by with_unfolding_all rfl) rfl rfl rfl

/-! ### C2: key-sorted normalization preserves lookups -/

theorem jget_fieldInsSorted (k : String) (v : Json)
    (fs : List (String × Json)) (q : String) :
    jget (fieldInsSorted k v fs) q = if q = k then some v else jget fs q := by
  induction fs with
  | nil =>
    by_cases hq : q = k
    · simp [fieldInsSorted, jget, hq]
    · have hne : ¬ (k = q) := fun h => hq h.symm
      simp [fieldInsSorted, jget, hq, hne]
  | cons kv rest ih =>
    obtain ⟨k', v'⟩ := kv
    by_cases hlt : strLtb k k'
    · by_cases hq : q = k
      · simp [fieldInsSorted, hlt, jget, hq]
      · have hne : ¬ (k = q) := fun h => hq h.symm
        simp [fieldInsSorted, hlt, jget, hq, hne]
    · by_cases heq : k = k'
      · subst heq
        by_cases hq : q = k
        · simp [fieldInsSorted, hlt, jget, hq]
        · have hne : ¬ (k = q) := fun h => hq h.symm
          simp [fieldInsSorted, hlt, jget, hq, hne]
      · have heq' : ¬ (k' = k) := fun h => heq h.symm
        by_cases hq : k' = q
        · have hne : ¬ (q = k) := fun h => heq' (hq.trans h)
          have hlt2 : ¬ (strLtb k q = true) := by rw [← hq]; exact hlt
          have hne2 : ¬ (k = q) := fun h => hne h.symm
          simp [fieldInsSorted, hlt, heq, jget, hq, hne, hlt2, hne2]
        · simp [fieldInsSorted, hlt, heq, jget, hq, ih]

theorem jget_append (l1 l2 : List (String × Json)) (q : String) :
    jget (l1 ++ l2) q =
      match jget l1 q with
      | some v => some v
      | none => jget l2 q := by
  induction l1 with
  | nil => simp [jget]
  | cons kv rest ih =>
    obtain ⟨k', v'⟩ := kv
    by_cases hq : k' = q
    · simp [jget, hq]
    · simp [jget, hq, ih]

theorem jget_foldl_insSorted (fs : List (String × Json))
    (acc : List (String × Json)) (q : String) :
    jget (fs.foldl (fun acc kv => fieldInsSorted kv.1 kv.2 acc) acc) q =
      match jget fs.reverse q with
      | some v => some v
      | none => jget acc q := by
  induction fs generalizing acc with
  | nil => simp [jget]
  | cons kv rest ih =>
    obtain ⟨k, v⟩ := kv
    simp only [List.foldl_cons, List.reverse_cons]
    rw [ih, jget_append]
    cases hr : jget rest.reverse q with
    | some w => rfl
    | none =>
      rw [jget_fieldInsSorted]
      by_cases hq : q = k
      · simp [jget, hq]
      · have hne : ¬ (k = q) := fun h => hq h.symm
        simp [jget, hq, hne]

theorem jget_reverse_of_nodup (fs : List (String × Json)) (q : String)
    (h : keysNodup fs = true) : jget fs.reverse q = jget fs q := by
  induction fs with
  | nil => rfl
  | cons kv rest ih =>
    obtain ⟨k, v⟩ := kv
    simp only [keysNodup, Bool.and_eq_true] at h
    simp only [List.reverse_cons]
    rw [jget_append, ih h.2]
    by_cases hq : k = q
    · subst hq
      rw [Option.isNone_iff_eq_none.mp h.1]
      simp [jget]
    · cases hr : jget rest q with
      | some w => simp [jget, hq, hr]
      | none => simp [jget, hq, hr]

theorem jget_sortFields (fs : List (String × Json)) (q : String)
    (h : keysNodup fs = true) : jget (sortFields fs) q = jget fs q := by
  unfold sortFields
  rw [jget_foldl_insSorted, jget_reverse_of_nodup fs q h]
  cases hr : jget fs q with
  | some v => rfl
  | none => simp [jget]

theorem jget_normalizeFields (fs : List (String × Json)) (q : String) :
    jget (normalizeFields fs) q = (jget fs q).map normalizeValue := by
  induction fs with
  | nil => simp [normalizeFields, jget]
  | cons kv rest ih =>
    obtain ⟨k, v⟩ := kv
    by_cases hq : k = q
    · simp [normalizeFields, jget, hq]
    · simp [normalizeFields, jget, hq, ih]

theorem keysNodup_normalizeFields (fs : List (String × Json))
    (h : keysNodup fs = true) : keysNodup (normalizeFields fs) = true := by
  induction fs with
  | nil => rfl
  | cons kv rest ih =>
    obtain ⟨k, v⟩ := kv
    simp only [keysNodup, Bool.and_eq_true] at h
    simp only [normalizeFields, keysNodup, Bool.and_eq_true]
    refine ⟨?_, ih h.2⟩
    rw [jget_normalizeFields]
    rw [Option.isNone_iff_eq_none.mp h.1]
    rfl

/-- The master lookup lemma: looking a key up in a normalized object yields
the normalized original value. -/
theorem jget_normalizeObj (fs : List (String × Json)) (q : String)
    (h : keysNodup fs = true) :
    jget (sortFields (normalizeFields fs)) q =
      (jget fs q).map normalizeValue := by
  rw [jget_sortFields _ _ (keysNodup_normalizeFields fs h),
    jget_normalizeFields]

/-! Shape predicates are invariant under normalization. -/

theorem isString_normalizeValue (v : Json) :
    isString (normalizeValue v) = isString v := by
  cases v <;> simp [normalizeValue, isString]

theorem isNumber_normalizeValue (v : Json) :
    isNumber (normalizeValue v) = isNumber v := by
  cases v <;> simp [normalizeValue, isNumber]

theorem isBoolean_normalizeValue (v : Json) :
    isBoolean (normalizeValue v) = isBoolean v := by
  cases v <;> simp [normalizeValue, isBoolean]

theorem isObject_normalizeValue (v : Json) :
    isObject (normalizeValue v) = isObject v := by
  cases v <;> simp [normalizeValue, isObject]

theorem asStr_normalizeValue (v : Json) :
    (normalizeValue v).asStr = v.asStr := by
  cases v <;> simp [normalizeValue, Json.asStr]

theorem optionalString_map_normalize (o : Option Json) :
    optionalString (o.map normalizeValue) = optionalString o := by
  cases o with
  | none => rfl
  | some v => cases v <;> simp [optionalString, normalizeValue]

theorem optionalNumber_map_normalize (o : Option Json) :
    optionalNumber (o.map normalizeValue) = optionalNumber o := by
  cases o with
  | none => rfl
  | some v => simp [optionalNumber, isNumber_normalizeValue]

theorem optionalBoolean_map_normalize (o : Option Json) :
    optionalBoolean (o.map normalizeValue) = optionalBoolean o := by
  cases o with
  | none => rfl
  | some v => simp [optionalBoolean, isBoolean_normalizeValue]

theorem optionalObject_map_normalize (o : Option Json) :
    optionalObject (o.map normalizeValue) = optionalObject o := by
  cases o with
  | none => rfl
  | some v => simp [optionalObject, isObject_normalizeValue]

theorem all_isString_normalizeList (xs : List Json) :
    (normalizeList xs).all isString = xs.all isString := by
  induction xs with
  | nil => rfl
  | cons x rest ih => simp [normalizeList, isString_normalizeValue, ih]

theorem optionalStringArray_map_normalize (o : Option Json) :
    optionalStringArray (o.map normalizeValue) = optionalStringArray o := by
  cases o with
  | none => rfl
  | some v =>
    cases v <;> simp [optionalStringArray, normalizeValue]
    exact all_isString_normalizeList _

theorem any_isString_map_normalize (o : Option Json) :
    (o.map normalizeValue).any isString = o.any isString := by
  cases o with
  | none => rfl
  | some v => simp [isString_normalizeValue]

theorem any_isNumber_map_normalize (o : Option Json) :
    (o.map normalizeValue).any isNumber = o.any isNumber := by
  cases o with
  | none => rfl
  | some v => simp [isNumber_normalizeValue]

theorem any_isObject_map_normalize (o : Option Json) :
    (o.map normalizeValue).any isObject = o.any isObject := by
  cases o with
  | none => rfl
  | some v => simp [isObject_normalizeValue]

theorem bind_asStr_map_normalize (o : Option Json) :
    (o.map normalizeValue).bind Json.asStr = o.bind Json.asStr := by
  cases o with
  | none => rfl
  | some v => simp [asStr_normalizeValue]

/-! Well-formedness bookkeeping for subvalues. -/

theorem wf_arr_list {xs : List Json} (h : Json.wf (.arr xs) = true) :
    Json.wfList xs = true := by simpa [Json.wf] using h

theorem wfList_mem {xs : List Json} {x : Json} (h : Json.wfList xs = true)
    (hm : x ∈ xs) : x.wf = true := by
  induction xs with
  | nil => simp at hm
  | cons y rest ih =>
    simp only [Json.wfList, Bool.and_eq_true] at h
    rcases List.mem_cons.mp hm with rfl | hm'
    · exact h.1
    · exact ih h.2 hm'


/-! ### C2: validation is invariant under `normalize_uec` -/

theorem normalizeValue_obj (fs : List (String × Json)) :
    normalizeValue (.obj fs) = .obj (sortFields (normalizeFields fs)) := rfl

theorem normalizeValue_arr (xs : List Json) :
    normalizeValue (.arr xs) = .arr (normalizeList xs) := rfl

theorem jget_normalizeObj_fun (m : List (String × Json))
    (h : Json.wfFields m = true) :
    ∀ q, jget (sortFields (normalizeFields m)) q = (jget m q).map normalizeValue :=
  fun q => jget_normalizeObj m q (wfFields_keysNodup h)

theorem validateKind_normalize (o : Option Json) :
    validateKind (o.map normalizeValue) = validateKind o := by
  cases o with
  | none => rfl
  | some v => cases v <;> rfl

theorem validateAppSpecificSettings_normalize (o : Option Json) :
    validateAppSpecificSettings (o.map normalizeValue) =
      validateAppSpecificSettings o := by
  cases o with
  | none => rfl
  | some v => simp [validateAppSpecificSettings, isObject_normalizeValue]

theorem validateExtensions_normalize (o : Option Json) :
    validateExtensions (o.map normalizeValue) = validateExtensions o := by
  cases o with
  | none => rfl
  | some v => simp [validateExtensions, isObject_normalizeValue]

theorem validateVoiceConfigV1_normalize (o : Option Json)
    (hwf : ∀ w, o = some w → w.wf = true) :
    validateVoiceConfigV1 (o.map normalizeValue) = validateVoiceConfigV1 o := by
  cases o with
  | none => rfl
  | some v =>
    cases v with
    | obj m =>
      have hg := jget_normalizeObj_fun m (wf_obj_fields (hwf _ rfl))
      simp only [Option.map_some']
      rw [normalizeValue_obj]
      simp only [validateVoiceConfigV1, hg, any_isString_map_normalize]
    | null => rfl
    | bool b => rfl
    | num n => rfl
    | str s => rfl
    | arr xs => rfl

theorem validateVoiceConfigV2_normalize (o : Option Json)
    (hwf : ∀ w, o = some w → w.wf = true) :
    validateVoiceConfigV2 (o.map normalizeValue) = validateVoiceConfigV2 o := by
  cases o with
  | none => rfl
  | some v =>
    cases v with
    | obj m =>
      have hg := jget_normalizeObj_fun m (wf_obj_fields (hwf _ rfl))
      simp only [Option.map_some']
      rw [normalizeValue_obj]
      simp only [validateVoiceConfigV2, hg, any_isString_map_normalize,
        optionalString_map_normalize]
    | null => rfl
    | bool b => rfl
    | num n => rfl
    | str s => rfl
    | arr xs => rfl

theorem validateVariant_normalize (v : Json) (path : String)
    (hwf : v.wf = true) :
    validateVariant (normalizeValue v) path = validateVariant v path := by
  cases v with
  | obj m =>
    have hg := jget_normalizeObj_fun m (wf_obj_fields hwf)
    rw [normalizeValue_obj]
    simp only [validateVariant, hg, any_isString_map_normalize,
      any_isNumber_map_normalize]
  | null => rfl
  | bool b => rfl
  | num n => rfl
  | str s => rfl
  | arr xs => rfl

theorem validateVariants_normalize (variants : List Json) (path : String)
    (index : Nat) (hwf : Json.wfList variants = true) :
    validateVariants (normalizeList variants) path index =
      validateVariants variants path index := by
  induction variants generalizing index with
  | nil => rfl
  | cons x rest ih =>
    simp only [Json.wfList, Bool.and_eq_true] at hwf
    simp only [normalizeList, validateVariants]
    rw [validateVariant_normalize x _ hwf.1, ih (index + 1) hwf.2]

theorem app_congr {a b c d : List String} (h1 : a = b) (h2 : c = d) :
    a ++ c = b ++ d := by rw [h1, h2]

/-- The shared "must be an array of strings" field check, invariant under
normalization (used for book `keys`, meta `authors`, v2 `source`, …). -/
theorem stringArrayCheck_normalize (o : Option Json) (path : String) :
    (match o.map normalizeValue with
     | some (.arr items) =>
       if !items.all isString then [mkError path "must be an array of strings"]
       else []
     | some _ => [mkError path "must be an array of strings"]
     | none => []) =
    (match o with
     | some (.arr items) =>
       if !items.all isString then [mkError path "must be an array of strings"]
       else []
     | some _ => [mkError path "must be an array of strings"]
     | none => []) := by
  cases o with
  | none => rfl
  | some v => cases v <;> simp [normalizeValue, all_isString_normalizeList]

theorem validateBookEntry_normalize (entry : Json) (entryPath : String)
    (hwf : entry.wf = true) :
    validateBookEntry (normalizeValue entry) entryPath =
      validateBookEntry entry entryPath := by
  cases entry with
  | obj m =>
    have hg := jget_normalizeObj_fun m (wf_obj_fields hwf)
    rw [normalizeValue_obj]
    simp only [validateBookEntry, hg, optionalString_map_normalize,
      any_isString_map_normalize, optionalBoolean_map_normalize,
      optionalNumber_map_normalize]
    exact app_congr (app_congr (app_congr (app_congr (app_congr (app_congr
      (app_congr (app_congr rfl
        (stringArrayCheck_normalize (jget m "keys") (entryPath ++ ".keys")))
        (stringArrayCheck_normalize (jget m "secondary_keys")
          (entryPath ++ ".secondary_keys")))
        rfl) rfl) rfl) rfl) rfl) rfl
  | null => rfl
  | bool b => rfl
  | num n => rfl
  | str s => rfl
  | arr xs => rfl

theorem validateBookEntries_normalize (entries : List Json) (index : Nat)
    (hwf : Json.wfList entries = true) :
    validateBookEntries (normalizeList entries) index =
      validateBookEntries entries index := by
  induction entries generalizing index with
  | nil => rfl
  | cons x rest ih =>
    simp only [Json.wfList, Bool.and_eq_true] at hwf
    simp only [normalizeList, validateBookEntries]
    rw [validateBookEntry_normalize x _ hwf.1, ih (index + 1) hwf.2]

theorem validateCharacterBook_normalize (o : Option Json)
    (hwf : ∀ w, o = some w → w.wf = true) :
    validateCharacterBook (o.map normalizeValue) = validateCharacterBook o := by
  cases o with
  | none => rfl
  | some v =>
    cases v with
    | obj m =>
      have hwfv := hwf _ rfl
      have hg := jget_normalizeObj_fun m (wf_obj_fields hwfv)
      simp only [Option.map_some']
      rw [normalizeValue_obj]
      simp only [validateCharacterBook, hg, optionalString_map_normalize]
      cases he : jget m "entries" with
      | none => rfl
      | some w =>
        have hwfw : w.wf = true := wfFields_jget (wf_obj_fields hwfv) he
        cases w with
        | arr xs =>
          simp only [Option.map_some', normalizeValue_arr]
          rw [validateBookEntries_normalize xs 0 (wf_arr_list hwfw)]
        | null => rfl
        | bool b => rfl
        | num n => rfl
        | str s => rfl
        | obj fs2 => simp [normalizeValue]
    | null => rfl
    | bool b => rfl
    | num n => rfl
    | str s => rfl
    | arr xs => rfl

theorem validateSceneBase_normalize (scene : Json) (path : String)
    (strict : Bool) (hwf : scene.wf = true) :
    validateSceneBase (normalizeValue scene) path strict =
      validateSceneBase scene path strict := by
  cases scene with
  | obj m =>
    have hg := jget_normalizeObj_fun m (wf_obj_fields hwf)
    rw [normalizeValue_obj]
    simp only [validateSceneBase, hg, any_isString_map_normalize,
      optionalString_map_normalize, optionalNumber_map_normalize]
    cases hv : jget m "variants" with
    | none => rfl
    | some w =>
      have hwfw : w.wf = true := wfFields_jget (wf_obj_fields hwf) hv
      cases w with
      | arr xs =>
        simp only [Option.map_some', normalizeValue_arr]
        rw [validateVariants_normalize xs path 0 (wf_arr_list hwfw)]
      | null => rfl
      | bool b => rfl
      | num n => rfl
      | str s => rfl
      | obj fs2 => simp [normalizeValue]
  | null => rfl
  | bool b => rfl
  | num n => rfl
  | str s => rfl
  | arr xs => rfl

theorem validateScene_normalize (scene : Json) (path : String) (strict : Bool)
    (hwf : scene.wf = true) :
    validateScene (normalizeValue scene) path strict =
      validateScene scene path strict := by
  simp only [validateScene]
  rw [validateSceneBase_normalize scene path strict hwf]
  cases scene with
  | obj m =>
    have hg := jget_normalizeObj_fun m (wf_obj_fields hwf)
    rw [normalizeValue_obj]
    simp only [hg]
    cases hv : jget m "selectedVariantId" with
    | none => rfl
    | some w => cases w <;> simp [normalizeValue]
  | null => rfl
  | bool b => rfl
  | num n => rfl
  | str s => rfl
  | arr xs => rfl

theorem validateSceneV2_normalize (scene : Json) (path : String) (strict : Bool)
    (hwf : scene.wf = true) :
    validateSceneV2 (normalizeValue scene) path strict =
      validateSceneV2 scene path strict := by
  simp only [validateSceneV2]
  rw [validateSceneBase_normalize scene path strict hwf]
  cases scene with
  | obj m =>
    have hg := jget_normalizeObj_fun m (wf_obj_fields hwf)
    rw [normalizeValue_obj]
    simp only [hg]
    cases hv : jget m "selectedVariant" with
    | none => rfl
    | some w => cases w <;> simp [normalizeValue]
  | null => rfl
  | bool b => rfl
  | num n => rfl
  | str s => rfl
  | arr xs => rfl

theorem validateScenes_normalize (scenes : List Json) (index : Nat)
    (strict : Bool) (hwf : Json.wfList scenes = true) :
    validateScenes (normalizeList scenes) index strict =
      validateScenes scenes index strict := by
  induction scenes generalizing index with
  | nil => rfl
  | cons x rest ih =>
    simp only [Json.wfList, Bool.and_eq_true] at hwf
    simp only [normalizeList, validateScenes]
    rw [validateScene_normalize x _ strict hwf.1, ih (index + 1) hwf.2]

theorem validateAssetLocator_normalize (o : Option Json) (path : String)
    (hwf : ∀ w, o = some w → w.wf = true) :
    validateAssetLocator (o.map normalizeValue) path =
      validateAssetLocator o path := by
  cases o with
  | none => rfl
  | some v =>
    cases v with
    | obj m =>
      have hg := jget_normalizeObj_fun m (wf_obj_fields (hwf _ rfl))
      simp only [Option.map_some']
      rw [normalizeValue_obj]
      simp only [validateAssetLocator, hg, bind_asStr_map_normalize,
        optionalString_map_normalize, any_isString_map_normalize]
    | null => rfl
    | bool b => rfl
    | num n => rfl
    | str s => rfl
    | arr xs => rfl

theorem isSome_map_normalize (o : Option Json) :
    (o.map normalizeValue).isSome = o.isSome := by cases o <;> rfl

/-- The `schema.compat` check, invariant under normalization. -/
theorem compatCheck_normalize (o : Option Json) :
    (match o.map normalizeValue with
     | some compat =>
       if !isString compat then
         [mkError "schema.compat" "must be a string if provided"]
       else []
     | none => []) =
    (match o with
     | some compat =>
       if !isString compat then
         [mkError "schema.compat" "must be a string if provided"]
       else []
     | none => []) := by
  cases o with
  | none => rfl
  | some v => cases v <;> simp [normalizeValue, isString]

theorem validateSchema_normalize (o : Option Json)
    (hwf : ∀ w, o = some w → w.wf = true) :
    validateSchema (o.map normalizeValue) = validateSchema o := by
  cases o with
  | none => rfl
  | some v =>
    cases v with
    | obj m =>
      have hg := jget_normalizeObj_fun m (wf_obj_fields (hwf _ rfl))
      simp only [Option.map_some']
      rw [normalizeValue_obj]
      simp only [validateSchema, hg, any_isString_map_normalize,
        bind_asStr_map_normalize]
      refine congrArg₂ Prod.mk ?_ rfl
      exact app_congr (app_congr rfl rfl) (compatCheck_normalize (jget m "compat"))
    | null => rfl
    | bool b => rfl
    | num n => rfl
    | str s => rfl
    | arr xs => rfl

theorem validateMeta_normalize (o : Option Json)
    (hwf : ∀ w, o = some w → w.wf = true) :
    validateMeta (o.map normalizeValue) = validateMeta o := by
  cases o with
  | none => rfl
  | some v =>
    cases v with
    | obj m =>
      have hg := jget_normalizeObj_fun m (wf_obj_fields (hwf _ rfl))
      simp only [Option.map_some']
      rw [normalizeValue_obj]
      simp only [validateMeta, hg, optionalNumber_map_normalize,
        optionalString_map_normalize]
      exact app_congr (app_congr (app_congr (app_congr rfl rfl) rfl)
        (stringArrayCheck_normalize (jget m "authors") "meta.authors")) rfl
    | null => rfl
    | bool b => rfl
    | num n => rfl
    | str s => rfl
    | arr xs => rfl

theorem validateMetaV2_normalize (o : Option Json) (strict : Bool)
    (hwf : ∀ w, o = some w → w.wf = true) :
    validateMetaV2 (o.map normalizeValue) strict = validateMetaV2 o strict := by
  unfold validateMetaV2
  rw [any_isObject_map_normalize]
  refine app_congr (validateMeta_normalize o hwf) ?_
  cases hsm : strict && !(o.any isObject) with
  | true => simp
  | false =>
    simp only [Bool.false_eq_true, if_false]
    cases o with
    | none => rfl
    | some w =>
      cases w with
      | obj mm =>
        have hg := jget_normalizeObj_fun mm (wf_obj_fields (hwf _ rfl))
        simp only [Option.map_some', normalizeValue_obj]
        simp only [hg, optionalNumber_map_normalize,
          optionalString_map_normalize, any_isNumber_map_normalize]
      | null => rfl
      | bool b => rfl
      | num n => rfl
      | str s => rfl
      | arr xs => rfl

/-- The mandatory-array field check in the strict part of payload v1,
invariant under normalization (used for `rules` and `scenes`). -/
theorem requiredArrayCheck_normalize (o : Option Json) (path : String) :
    (match o.map normalizeValue with
     | some (.arr _) => []
     | _ => [mkError path "is required in strict mode"]) =
    (match o with
     | some (.arr _) => []
     | _ => [mkError path "is required in strict mode"]) := by
  cases o with
  | none => rfl
  | some v => cases v <;> rfl

/-- The `payload.scenes` check of payload v1 (the match the validator
performs on the field). -/
def scenesCheck (o : Option Json) (strict : Bool) : List String :=
  match o with
  | some (.arr scenes) => validateScenes scenes 0 strict
  | some _ => [mkError "payload.scenes" "must be an array"]
  | none => []

theorem scenesCheck_normalize (o : Option Json) (strict : Bool)
    (hwf : ∀ w, o = some w → w.wf = true) :
    scenesCheck (o.map normalizeValue) strict = scenesCheck o strict := by
  unfold scenesCheck
  cases o with
  | none => rfl
  | some w =>
    cases w with
    | arr xs => exact validateScenes_normalize xs 0 strict (wf_arr_list (hwf _ rfl))
    | null => rfl
    | bool b => rfl
    | num n => rfl
    | str s => rfl
    | obj fs => rfl

/-- The `payload.scene` check of payload v2 (the match the validator
performs on the field). -/
def sceneV2Check (o : Option Json) (strict : Bool) : List String :=
  match o with
  | some .null => []
  | some scene => validateSceneV2 scene "payload.scene" strict
  | none => []

theorem sceneV2Check_normalize (o : Option Json) (strict : Bool)
    (hwf : ∀ w, o = some w → w.wf = true) :
    sceneV2Check (o.map normalizeValue) strict = sceneV2Check o strict := by
  unfold sceneV2Check
  cases o with
  | none => rfl
  | some w =>
    cases w with
    | null => rfl
    | obj mm => exact validateSceneV2_normalize _ _ strict (hwf _ rfl)
    | bool b => exact validateSceneV2_normalize _ _ strict (hwf _ rfl)
    | num n => exact validateSceneV2_normalize _ _ strict (hwf _ rfl)
    | str s => exact validateSceneV2_normalize _ _ strict (hwf _ rfl)
    | arr xs => exact validateSceneV2_normalize _ _ strict (hwf _ rfl)

theorem validateCharacterPayloadV1_normalize (p : Json) (strict : Bool)
    (hwf : p.wf = true) :
    validateCharacterPayloadV1 (normalizeValue p) strict =
      validateCharacterPayloadV1 p strict := by
  cases p with
  | obj m =>
    have hF := wf_obj_fields hwf
    have hg := jget_normalizeObj_fun m hF
    have hwfk : ∀ k w, jget m k = some w → w.wf = true :=
      fun k w hk => wfFields_jget hF hk
    rw [normalizeValue_obj]
    simp only [validateCharacterPayloadV1, hg, any_isString_map_normalize,
      optionalString_map_normalize, optionalStringArray_map_normalize,
      optionalNumber_map_normalize, optionalBoolean_map_normalize,
      any_isNumber_map_normalize]
    rw [validateVoiceConfigV1_normalize (jget m "voiceConfig") (hwfk _)]
    have hstrict :
        ∀ a b c d e f g h : List String, a = b → c = d →
          (if strict then (e ++ a ++ c ++ f ++ g) else h) =
          (if strict then (e ++ b ++ d ++ f ++ g) else h) := by
      intro a b c d e f g h h1 h2
      rw [h1, h2]
    exact app_congr (app_congr (app_congr (app_congr (app_congr (app_congr
      (app_congr (app_congr (app_congr (app_congr (app_congr (app_congr
      (app_congr (app_congr (app_congr (app_congr rfl rfl) rfl) rfl) rfl)
      rfl) rfl) rfl)
      (scenesCheck_normalize (jget m "scenes") strict (hwfk _))) rfl) rfl)
      rfl) rfl) rfl) rfl) rfl)
      (hstrict _ _ _ _ _ _ _ _
        (requiredArrayCheck_normalize (jget m "rules") "payload.rules")
        (requiredArrayCheck_normalize (jget m "scenes") "payload.scenes"))
  | null => rfl
  | bool b => rfl
  | num n => rfl
  | str s => rfl
  | arr xs => rfl

theorem validatePersonaPayloadV1_normalize (p : Json) (strict : Bool)
    (hwf : p.wf = true) :
    validatePersonaPayloadV1 (normalizeValue p) strict =
      validatePersonaPayloadV1 p strict := by
  cases p with
  | obj m =>
    have hg := jget_normalizeObj_fun m (wf_obj_fields hwf)
    rw [normalizeValue_obj]
    simp only [validatePersonaPayloadV1, hg, any_isString_map_normalize,
      optionalString_map_normalize, optionalBoolean_map_normalize,
      optionalNumber_map_normalize, any_isNumber_map_normalize]
  | null => rfl
  | bool b => rfl
  | num n => rfl
  | str s => rfl
  | arr xs => rfl

theorem validateCharacterPayloadV2_normalize (p : Json) (strict : Bool)
    (hwf : p.wf = true) :
    validateCharacterPayloadV2 (normalizeValue p) strict =
      validateCharacterPayloadV2 p strict := by
  cases p with
  | obj m =>
    have hF := wf_obj_fields hwf
    have hg := jget_normalizeObj_fun m hF
    have hwfk : ∀ k w, jget m k = some w → w.wf = true :=
      fun k w hk => wfFields_jget hF hk
    rw [normalizeValue_obj]
    simp only [validateCharacterPayloadV2, hg, any_isString_map_normalize,
      optionalString_map_normalize, optionalStringArray_map_normalize,
      optionalNumber_map_normalize, optionalBoolean_map_normalize,
      optionalObject_map_normalize, any_isNumber_map_normalize,
      any_isObject_map_normalize, isSome_map_normalize]
    rw [validateAssetLocator_normalize (jget m "avatar") "payload.avatar"
        (hwfk _),
      validateAssetLocator_normalize (jget m "chatBackground")
        "payload.chatBackground" (hwfk _),
      validateVoiceConfigV2_normalize (jget m "voiceConfig") (hwfk _),
      validateCharacterBook_normalize (jget m "characterBook") (hwfk _)]
    exact app_congr (app_congr (app_congr (app_congr (app_congr (app_congr
      (app_congr (app_congr (app_congr (app_congr (app_congr (app_congr
      (app_congr (app_congr (app_congr (app_congr (app_congr (app_congr
      (app_congr (app_congr (app_congr (app_congr (app_congr
      rfl rfl) rfl) rfl) rfl) rfl) rfl) rfl)
      (sceneV2Check_normalize (jget m "scene") strict (hwfk _)))
      rfl) rfl) rfl) rfl) rfl) rfl) rfl) rfl)
      (stringArrayCheck_normalize (jget m "source") "payload.source"))
      rfl) rfl) rfl) rfl) rfl) rfl
  | null => rfl
  | bool b => rfl
  | num n => rfl
  | str s => rfl
  | arr xs => rfl

theorem validatePersonaPayloadV2_normalize (p : Json) (strict : Bool)
    (hwf : p.wf = true) :
    validatePersonaPayloadV2 (normalizeValue p) strict =
      validatePersonaPayloadV2 p strict := by
  cases p with
  | obj m =>
    have hF := wf_obj_fields hwf
    have hg := jget_normalizeObj_fun m hF
    rw [normalizeValue_obj]
    simp only [validatePersonaPayloadV2, hg, any_isString_map_normalize,
      optionalString_map_normalize, optionalBoolean_map_normalize,
      optionalNumber_map_normalize, any_isNumber_map_normalize]
    rw [validateAssetLocator_normalize (jget m "avatar") "payload.avatar"
      (fun w hw => wfFields_jget hF hw)]
  | null => rfl
  | bool b => rfl
  | num n => rfl
  | str s => rfl
  | arr xs => rfl

theorem validatePayloadDispatch_normalize (payload kind : Option Json)
    (isV2 known strict : Bool)
    (hwf : ∀ w, payload = some w → w.wf = true) :
    validatePayloadDispatch (payload.map normalizeValue)
      (kind.map normalizeValue) isV2 known strict =
      validatePayloadDispatch payload kind isV2 known strict := by
  cases payload with
  | none => rfl
  | some v =>
    cases v with
    | obj m =>
      have h1 := validateCharacterPayloadV2_normalize (.obj m) strict (hwf _ rfl)
      have h2 := validateCharacterPayloadV1_normalize (.obj m) strict (hwf _ rfl)
      have h3 := validatePersonaPayloadV2_normalize (.obj m) strict (hwf _ rfl)
      have h4 := validatePersonaPayloadV1_normalize (.obj m) strict (hwf _ rfl)
      rw [normalizeValue_obj] at h1 h2 h3 h4
      simp only [Option.map_some', normalizeValue_obj, validatePayloadDispatch,
        bind_asStr_map_normalize]
      cases hkb : kind.bind Json.asStr with
      | none => rfl
      | some s =>
        by_cases hc : s = "character"
        · subst hc
          simp [h1, h2]
        · by_cases hp : s = "persona"
          · subst hp
            simp [h3, h4]
          · simp [hc, hp]
    | null => rfl
    | bool b => rfl
    | num n => rfl
    | str s => rfl
    | arr xs => rfl

/-- One defaulting step of `tools::normalize_uec`: insert `{}` at the key
unless the present value is already an object. -/
def ensureObjDefault (root : List (String × Json)) (k : String) :
    List (String × Json) :=
  if (jget root k).any isObject then root else jinsert root k (.obj [])

theorem normalizeUec_obj (fs : List (String × Json)) :
    normalizeUec (.obj fs) =
      .obj (ensureObjDefault (ensureObjDefault (ensureObjDefault
        (sortFields (normalizeFields fs)) "app_specific_settings") "meta")
        "extensions") := rfl

theorem jget_ensureObjDefault_ne (root : List (String × Json)) {k q : String}
    (h : q ≠ k) : jget (ensureObjDefault root k) q = jget root q := by
  by_cases hc : (jget root k).any isObject
  · simp [ensureObjDefault, hc]
  · simp only [ensureObjDefault, hc, Bool.false_eq_true, if_false]
    exact jget_jinsert_ne root _ h

theorem jget_ensureObjDefault_self (root : List (String × Json)) (k : String) :
    jget (ensureObjDefault root k) k =
      if (jget root k).any isObject then jget root k else some (.obj []) := by
  by_cases hc : (jget root k).any isObject
  · simp [ensureObjDefault, hc]
  · simp [ensureObjDefault, hc, jget_jinsert_self]

/-- The defaulted empty `meta` object and an absent `meta` validate the same
way under `validate_meta_v2`, in both strict modes. -/
theorem validateMetaV2_empty_default (strict : Bool) :
    validateMetaV2 (some (.obj [])) strict = validateMetaV2 none strict := by
  cases strict <;> rfl

/-- C2 (amended): for every well-formed document `D` (objects never repeat a
key, as with real `serde_json` maps) whose top-level
`app_specific_settings`, `meta` and `extensions` are each absent or an
object, validating the normalized document gives exactly the same result as
validating `D`: `validate(normalize(D), strict) = validate(D, strict)`.  The
absent-or-object proviso is forced by the code: `normalize_uec` silently
replaces a non-object value of those three fields with `{}`, which removes
the corresponding "must be an object" validation error (see the
counterexample). -/
theorem validate_normalize_eq (D : Json) (strict : Bool)
    (hwf : D.wf = true)
    (happ : ∀ root, D = .obj root →
      (jget root "app_specific_settings").all isObject = true)
    (hmeta : ∀ root, D = .obj root → (jget root "meta").all isObject = true)
    (hext : ∀ root, D = .obj root →
      (jget root "extensions").all isObject = true) :
    validateUec (normalizeUec D) strict = validateUec D strict := by
  cases D with
  | obj fs =>
    have hF := wf_obj_fields hwf
    have hg := jget_normalizeObj_fun fs hF
    have happ2 := happ fs rfl
    have hmeta2 := hmeta fs rfl
    have hext2 := hext fs rfl
    rw [normalizeUec_obj]
    set E := ensureObjDefault (ensureObjDefault (ensureObjDefault
      (sortFields (normalizeFields fs)) "app_specific_settings") "meta")
      "extensions" with hEdef
    have hqne : ∀ q, q ≠ "app_specific_settings" → q ≠ "meta" →
        q ≠ "extensions" → jget E q = (jget fs q).map normalizeValue := by
      intro q h1 h2 h3
      rw [hEdef, jget_ensureObjDefault_ne _ h3, jget_ensureObjDefault_ne _ h2,
        jget_ensureObjDefault_ne _ h1, hg]
    have hschemaE : jget E "schema" = (jget fs "schema").map normalizeValue :=
      hqne _ (by decide) (by decide) (by decide)
    have hkindE : jget E "kind" = (jget fs "kind").map normalizeValue :=
      hqne _ (by decide) (by decide) (by decide)
    have hpayloadE : jget E "payload" = (jget fs "payload").map normalizeValue :=
      hqne _ (by decide) (by decide) (by decide)
    have happE : jget E "app_specific_settings" =
        if (jget fs "app_specific_settings").any isObject
        then (jget fs "app_specific_settings").map normalizeValue
        else some (.obj []) := by
      rw [hEdef, jget_ensureObjDefault_ne _ (by decide),
        jget_ensureObjDefault_ne _ (by decide), jget_ensureObjDefault_self,
        hg, any_isObject_map_normalize]
    have hmetaE : jget E "meta" =
        if (jget fs "meta").any isObject
        then (jget fs "meta").map normalizeValue
        else some (.obj []) := by
      rw [hEdef, jget_ensureObjDefault_ne _ (by decide),
        jget_ensureObjDefault_self, jget_ensureObjDefault_ne _ (by decide),
        hg, any_isObject_map_normalize]
    have hextE : jget E "extensions" =
        if (jget fs "extensions").any isObject
        then (jget fs "extensions").map normalizeValue
        else some (.obj []) := by
      rw [hEdef, jget_ensureObjDefault_self,
        jget_ensureObjDefault_ne _ (by decide),
        jget_ensureObjDefault_ne _ (by decide), hg, any_isObject_map_normalize]
    have hwfk : ∀ k w, jget fs k = some w → w.wf = true :=
      fun k w hk => wfFields_jget hF hk
    have hS : validateSchema (jget E "schema") =
        validateSchema (jget fs "schema") := by
      rw [hschemaE]; exact validateSchema_normalize _ (hwfk _)
    have hK : validateKind (jget E "kind") = validateKind (jget fs "kind") := by
      rw [hkindE]; exact validateKind_normalize _
    have hP : ∀ b1 b2, validatePayloadDispatch (jget E "payload")
        (jget E "kind") b1 b2 strict =
        validatePayloadDispatch (jget fs "payload") (jget fs "kind")
          b1 b2 strict := by
      intro b1 b2
      rw [hpayloadE, hkindE]
      exact validatePayloadDispatch_normalize _ _ b1 b2 strict (hwfk _)
    have hA : validateAppSpecificSettings (jget E "app_specific_settings") =
        validateAppSpecificSettings (jget fs "app_specific_settings") := by
      rw [happE]
      cases ha : jget fs "app_specific_settings" with
      | none => rfl
      | some w =>
        rw [ha] at happ2
        simp only [Option.all_some] at happ2
        simp [validateAppSpecificSettings, happ2, isObject_normalizeValue]
    have hE2 : validateExtensions (jget E "extensions") =
        validateExtensions (jget fs "extensions") := by
      rw [hextE]
      cases ha : jget fs "extensions" with
      | none => rfl
      | some w =>
        rw [ha] at hext2
        simp only [Option.all_some] at hext2
        simp [validateExtensions, hext2, isObject_normalizeValue]
    have hM1 : validateMeta (jget E "meta") = validateMeta (jget fs "meta") := by
      rw [hmetaE]
      cases hm : jget fs "meta" with
      | none => rfl
      | some w =>
        rw [hm] at hmeta2
        simp only [Option.all_some] at hmeta2
        simp only [Option.any_some, hmeta2, if_true]
        have h := validateMeta_normalize (some w)
          (fun u hu => by cases hu; exact hwfk _ _ hm)
        simpa using h
    have hM2 : validateMetaV2 (jget E "meta") strict =
        validateMetaV2 (jget fs "meta") strict := by
      rw [hmetaE]
      cases hm : jget fs "meta" with
      | none => exact validateMetaV2_empty_default strict
      | some w =>
        rw [hm] at hmeta2
        simp only [Option.all_some] at hmeta2
        simp only [Option.any_some, hmeta2, if_true]
        have h := validateMetaV2_normalize (some w) strict
          (fun u hu => by cases hu; exact hwfk _ _ hm)
        simpa using h
    simp only [validateUec]
    rw [hS, hK, hP, hA, hM1, hM2, hE2]
  | null => rfl
  | bool b => rfl
  | num n => rfl
  | str s => rfl
  | arr xs => rfl

/-- The counterexample card for C2: a valid v1 character card except that
`meta` is the number 5 (not an object). -/
def c2Card : Json := .obj [
  ("schema", .obj [("name", .str "UEC"), ("version", .str "1.0")]),
  ("kind", .str "character"),
  ("payload", .obj [("id", .str "x"), ("name", .str "N")]),
  ("meta", .num 5)]

/-- Counterexample to C2 as stated: `normalize_uec` replaces the non-object
`meta` of `c2Card` with `{}`, which removes the "meta: must be an object"
error — the original card is invalid while its normalization validates
cleanly, so normalization changes the validation result and even validity
itself. -/
theorem validate_normalize_counterexample :
    (validateUec c2Card false).ok = false ∧
      (validateUec (normalizeUec c2Card) false).ok = true := by
  constructor <;> with_unfolding_all rfl

/-- The witness card for C2's amended statement: a well-formed character
card whose `meta` is present as an object (`app_specific_settings` and
`extensions` are absent). -/
def c2GoodCard : Json := .obj [
  ("schema", .obj [("name", .str "UEC"), ("version", .str "1.0")]),
  ("kind", .str "character"),
  ("payload", .obj [("id", .str "x"), ("name", .str "N"),
    ("scenes", .arr [.obj [("id", .str "s1"), ("content", .str "c")]])]),
  ("meta", .obj [("createdAt", .num 1)])]

/-- Witness for C2's amended statement at the concrete card `c2GoodCard`
in strict mode. -/
theorem validate_normalize_eq_witness :
    validateUec (normalizeUec c2GoodCard) true = validateUec c2GoodCard true :=
  validate_normalize_eq c2GoodCard true (by with_unfolding_all rfl)
    (fun root h => by injection h with h2; subst h2; rfl)
    (fun root h => by injection h with h2; subst h2; rfl)
    (fun root h => by injection h with h2; subst h2; rfl)

end Uec
